import Mathlib

/-!
Shallow embedding of the smartclaw LLM gateway core: the candidate
selector, the retrying dispatcher, the Tier-2 classifier parsing, the
health bookkeeping, the budget ledger and the completion-handler logging.
Database tables are embedded as lists of row structures inside a `Db`
state record; SQL statements become pure list transformations; the
wall clock (`now`, `today`) is passed explicitly.  Money amounts are
modelled as exact rationals.
-/

namespace SmartClaw

abbrev Money := ℚ

/-- Row of the `models` table (fields used by the routing core). -/
structure ModelRecord where
  model_id : String
  provider : String
  location : String
  quality_score : Int
  context_window : Nat
  cost_input : Money
  cost_output : Money
  is_enabled : Bool
  is_healthy : Bool
  last_health_check : Option Nat
  deriving Repr, DecidableEq

/-- Row of the `provider_rate_limits` table. -/
structure RateLimitRow where
  provider : String
  is_rate_limited : Bool
  limited_since : Option Nat
  retry_after : Option Nat
  deriving Repr, DecidableEq

/-- Row of the `budget_tracking` table. -/
structure BudgetRow where
  period_type : String
  period_key : String
  total_spend : Money
  total_input_tokens : Nat
  total_output_tokens : Nat
  request_count : Nat
  deriving Repr, DecidableEq

/-- Row of the `model_health_log` table. -/
structure HealthLogRow where
  model_id : String
  is_healthy : Bool
  latency_ms : Option Nat
  error_msg : Option String
  consecutive_failures : Nat
  deriving Repr, DecidableEq

/-- Row of the `request_log` table (fields used by `logRequest`). -/
structure RequestLogRow where
  source : Option String
  channel : Option String
  tier_used : Nat
  selected_model : String
  input_tokens : Nat
  output_tokens : Nat
  cost_usd : Money
  success : Bool
  deriving Repr, DecidableEq

/-- The singleton `routing_policy` row (fields used by the routing core). -/
structure RoutingPolicy where
  prefer_location_order : String
  quality_tolerance : Int
  budget_daily_usd : Money
  budget_monthly_usd : Money
  fallback_model_id : Option String
  deriving Repr, DecidableEq

/-- The embedded database state.  Log tables are kept newest-first, so the
head of a list is the most recently inserted row (`ORDER BY id DESC LIMIT 1`
reads the head). -/
structure Db where
  policy : Option RoutingPolicy
  models : List ModelRecord
  model_capabilities : List (String × String)
  provider_rate_limits : List RateLimitRow
  budget_tracking : List BudgetRow
  model_health_log : List HealthLogRow
  request_log : List RequestLogRow
  deriving Repr, DecidableEq

/-- `today.slice(0, 7)`: the `YYYY-MM` key of an ISO `YYYY-MM-DD` date. -/
def monthOf (today : String) : String := today.take 7

-- ── Budget ledger (src/health/budget-tracker.ts) ──

/-- `SELECT ... FROM budget_tracking WHERE period_type = ? AND period_key = ?`. -/
def findBudgetRow (rows : List BudgetRow) (ptype pkey : String) : Option BudgetRow :=
  rows.find? (fun r => r.period_type = ptype ∧ r.period_key = pkey)

/-- `INSERT INTO budget_tracking ... ON CONFLICT(period_type, period_key) DO
UPDATE SET ...`: update the matching row when one exists, else insert a fresh
row with `request_count = 1`. -/
def budgetUpsert (rows : List BudgetRow) (ptype pkey : String)
    (cost : Money) (inTok outTok : Nat) : List BudgetRow :=
  if rows.any (fun r => r.period_type = ptype ∧ r.period_key = pkey) then
    rows.map (fun r =>
      if r.period_type = ptype ∧ r.period_key = pkey then
        { r with
          total_spend := r.total_spend + cost
          total_input_tokens := r.total_input_tokens + inTok
          total_output_tokens := r.total_output_tokens + outTok
          request_count := r.request_count + 1 }
      else r)
  else
    rows ++ [⟨ptype, pkey, cost, inTok, outTok, 1⟩]

/-- `calculateCost`: `(inputTokens * cost_input + outputTokens * cost_output) / 1_000_000`. -/
def calculateCost (model : ModelRecord) (inputTokens outputTokens : Nat) : Money :=
  ((inputTokens : Money) * model.cost_input + (outputTokens : Money) * model.cost_output) / 1000000

/-- `recordRequestCost`: compute the cost; when it is `≤ 0` do nothing and
return 0, otherwise upsert both the daily and the monthly budget row. -/
def recordRequestCost (db : Db) (model : ModelRecord)
    (inputTokens outputTokens : Nat) (today : String) : Db × Money :=
  let costUsd := calculateCost model inputTokens outputTokens
  if costUsd ≤ 0 then (db, 0)
  else
    let rows1 := budgetUpsert db.budget_tracking "daily" today costUsd inputTokens outputTokens
    let rows2 := budgetUpsert rows1 "monthly" (monthOf today) costUsd inputTokens outputTokens
    ({ db with budget_tracking := rows2 }, costUsd)

/-- `isBudgetExceeded`: false when the policy row is missing; otherwise true
iff the current daily row exists with spend at or above the daily limit, or
the current monthly row exists with spend at or above the monthly limit. -/
def isBudgetExceeded (db : Db) (today : String) : Bool :=
  match db.policy with
  | none => false
  | some policy =>
    let daily := findBudgetRow db.budget_tracking "daily" today
    let monthly := findBudgetRow db.budget_tracking "monthly" (monthOf today)
    (match daily with
     | some d => decide (policy.budget_daily_usd ≤ d.total_spend)
     | none => false)
    || (match monthly with
        | some m => decide (policy.budget_monthly_usd ≤ m.total_spend)
        | none => false)

/-- Claim C8's reading, taken verbatim from the spec sentence: accumulated
spend counts as 0 when no row exists for the current period, and the gate is
`spend ≥ limit` on either period. -/
def isBudgetExceededSpec (policy : RoutingPolicy) (rows : List BudgetRow) (today : String) : Bool :=
  let dailySpend := (findBudgetRow rows "daily" today).elim 0 (·.total_spend)
  let monthlySpend := (findBudgetRow rows "monthly" (monthOf today)).elim 0 (·.total_spend)
  decide (policy.budget_daily_usd ≤ dailySpend) || decide (policy.budget_monthly_usd ≤ monthlySpend)

-- ── Candidate selection (src/router/candidate-select.ts) ──

/-- The selector's criteria record. -/
structure SelectionCriteria where
  quality_floor : Int
  required_capability : Option String
  sensitive : Bool
  estimated_tokens : Nat
  deriving Repr, DecidableEq

/-- One entry of the ranked candidate list. -/
structure RankedCandidate where
  model : ModelRecord
  score : Int
  rank : Nat
  deriving Repr, DecidableEq

/-- JS `String.prototype.trim`: strip leading and trailing whitespace
(executable over the character list). -/
def jsTrim (s : String) : String :=
  ⟨((s.toList.dropWhile Char.isWhitespace).reverse.dropWhile Char.isWhitespace).reverse⟩

/-- JS `String.prototype.split` with a single-character separator,
executable over the character list (splitting the empty string yields one
empty piece, as in JS). -/
def splitOnChar (sep : Char) : List Char → List (List Char)
  | [] => [[]]
  | c :: rest =>
    let r := splitOnChar sep rest
    if c = sep then [] :: r
    else
      match r with
      | [] => [[c]]
      | h :: t => (c :: h) :: t

/-- JS `s.split(sep)` for a one-character separator. -/
def jsSplit (s : String) (sep : Char) : List String :=
  (splitOnChar sep s.toList).map (fun cs => ⟨cs⟩)

/-- JS `String.prototype.toLowerCase` (ASCII case mapping). -/
def jsToLower (s : String) : String := ⟨s.toList.map Char.toLower⟩

/-- JS `String.prototype.startsWith`. -/
def jsStartsWith (s pre : String) : Bool := pre.toList.isPrefixOf s.toList

/-- JS `String.prototype.endsWith`. -/
def jsEndsWith (s suf : String) : Bool := suf.toList.isSuffixOf s.toList

/-- `policy.prefer_location_order.split(',').map(s => s.trim())`. -/
def parseLocationOrder (s : String) : List String :=
  (jsSplit s ',').map jsTrim

/-- JS `Array.prototype.indexOf`: 0-based index of the first occurrence, `-1`
when absent. -/
def locIdx (locationOrder : List String) (m : ModelRecord) : Int :=
  match locationOrder.findIdx? (fun s => s = m.location) with
  | some i => (i : Int)
  | none => -1

/-- The cost sort key `cost_input + cost_output`. -/
def totalCost (m : ModelRecord) : Money := m.cost_input + m.cost_output

/-- `UPDATE provider_rate_limits SET is_rate_limited = 0, ... WHERE
is_rate_limited = 1 AND retry_after IS NOT NULL AND retry_after <= now`. -/
def clearExpiredRateLimits (now : Nat) (rows : List RateLimitRow) : List RateLimitRow :=
  rows.map (fun r =>
    if r.is_rate_limited && (match r.retry_after with
                             | some t => decide (t ≤ now)
                             | none => false) then
      { r with is_rate_limited := false, limited_since := none, retry_after := none }
    else r)

/-- `SELECT provider FROM provider_rate_limits WHERE is_rate_limited = 1`. -/
def rateLimitedProviders (rows : List RateLimitRow) : List String :=
  (rows.filter (fun r => r.is_rate_limited)).map (fun r => r.provider)

/-- The base model query: enabled and healthy models, inner-joined against
`model_capabilities` when a capability is required. -/
def baseModels (db : Db) (c : SelectionCriteria) : List ModelRecord :=
  match c.required_capability with
  | some cap =>
    db.models.filter (fun m =>
      m.is_enabled && m.is_healthy && (db.model_capabilities.contains (m.model_id, cap)))
  | none =>
    db.models.filter (fun m => m.is_enabled && m.is_healthy)

/-- The hard-filter pipeline of `selectCandidates`, up to but not including
the quality-tolerance step: base query, then rate-limit, context-window,
sensitive-privacy and budget filters, in source order. -/
def hardFiltered (now : Nat) (today : String) (db : Db) (c : SelectionCriteria) :
    List ModelRecord :=
  let budgetExceeded := isBudgetExceeded db today
  let rl := rateLimitedProviders (clearExpiredRateLimits now db.provider_rate_limits)
  let ms0 := baseModels db c
  let ms1 := ms0.filter (fun m => !(rl.contains m.provider))
  let ms2 := ms1.filter (fun m => c.estimated_tokens ≤ m.context_window)
  let ms3 := if c.sensitive then ms2.filter (fun m => m.location ≠ "cloud") else ms2
  if budgetExceeded then ms3.filter (fun m => m.location ≠ "cloud") else ms3

/-- `applyQualityTolerance`: prefer strict quality-floor matches; otherwise
zero-output-cost models within tolerance; otherwise empty. -/
def applyQualityTolerance (candidates : List ModelRecord)
    (qualityFloor tolerance : Int) : List ModelRecord :=
  let strict := candidates.filter (fun m => qualityFloor ≤ m.quality_score)
  if strict.length > 0 then strict
  else
    let soft := candidates.filter (fun m =>
      qualityFloor - tolerance ≤ m.quality_score ∧ m.cost_output = 0)
    if soft.length > 0 then soft
    else []

/-- The three-key comparator of `selectCandidates` as a strict test:
`a` sorts strictly before `b`. -/
def keyLt (lo : List String) (a b : ModelRecord) : Bool :=
  decide (locIdx lo a < locIdx lo b) ||
  (decide (locIdx lo a = locIdx lo b) &&
    (decide (totalCost a < totalCost b) ||
     (decide (totalCost a = totalCost b) && decide (b.quality_score < a.quality_score))))

/-- Stable insertion of a model into an already-sorted list: it goes in
front of the first element that does not sort strictly before it. -/
def insertModel (lo : List String) (x : ModelRecord) : List ModelRecord → List ModelRecord
  | [] => [x]
  | y :: ys => if keyLt lo y x then y :: insertModel lo x ys else x :: y :: ys

/-- Stable sort by the three-key comparator (the JS `Array.prototype.sort`
call with the selector's comparator). -/
def sortModels (lo : List String) : List ModelRecord → List ModelRecord
  | [] => []
  | x :: xs => insertModel lo x (sortModels lo xs)

/-- `models.map((model, index) => ({model, score, rank: index + 1}))`,
generalised over the starting rank. -/
def buildRanked (i : Nat) : List ModelRecord → List RankedCandidate
  | [] => []
  | m :: ms => ⟨m, m.quality_score, i⟩ :: buildRanked (i + 1) ms

/-- `selectCandidates`: none when the singleton policy row is missing (the
source would crash dereferencing it); otherwise the filtered, quality-gated,
sorted and ranked candidate list. -/
def selectCandidates (now : Nat) (today : String) (db : Db) (c : SelectionCriteria) :
    Option (List RankedCandidate) :=
  match db.policy with
  | none => none
  | some policy =>
    let locationOrder := parseLocationOrder policy.prefer_location_order
    let final := applyQualityTolerance (hardFiltered now today db c)
      c.quality_floor policy.quality_tolerance
    some (buildRanked 1 (sortModels locationOrder final))

/-- The non-strict three-key lexicographic order used to state the sortedness
of the selector output. -/
def ThreeKeyLe (lo : List String) (a b : ModelRecord) : Prop :=
  locIdx lo a < locIdx lo b ∨
    (locIdx lo a = locIdx lo b ∧
      (totalCost a < totalCost b ∨
        (totalCost a = totalCost b ∧ b.quality_score ≤ a.quality_score)))

-- ── String helpers for the JS error / fence tests ──

/-- Whether `needle` occurs as a contiguous sublist of the second list. -/
def listContainsSub (needle : List Char) : List Char → Bool
  | [] => needle.isEmpty
  | c :: t => needle.isPrefixOf (c :: t) || listContainsSub needle t

/-- JS `hay.includes(needle)`. -/
def strContains (hay needle : String) : Bool :=
  listContainsSub needle.toList hay.toList

-- ── Health bookkeeping (src/health/health-checker.ts) ──

/-- The `UNHEALTHY_THRESHOLD` constant. -/
def UNHEALTHY_THRESHOLD : Nat := 3

/-- `SELECT consecutive_failures FROM model_health_log WHERE model_id = ?
ORDER BY id DESC LIMIT 1` (the log list is newest-first). -/
def lastHealthEntry (log : List HealthLogRow) (modelId : String) : Option HealthLogRow :=
  log.find? (fun r => r.model_id = modelId)

/-- `UPDATE models SET is_healthy = ?, last_health_check = now WHERE model_id = ?`. -/
def updateModelHealth (models : List ModelRecord) (modelId : String)
    (healthy : Option Bool) (now : Nat) : List ModelRecord :=
  models.map (fun m =>
    if m.model_id = modelId then
      match healthy with
      | some h => { m with is_healthy := h, last_health_check := some now }
      | none => { m with last_health_check := some now }
    else m)

/-- `markHealthy`: append a healthy log row with zero consecutive failures,
then set the model record healthy and refresh its last-check timestamp. -/
def markHealthy (now : Nat) (db : Db) (modelId : String) (latencyMs : Nat) : Db :=
  let db1 := { db with model_health_log :=
    ⟨modelId, true, some latencyMs, none, 0⟩ :: db.model_health_log }
  { db1 with models := updateModelHealth db1.models modelId (some true) now }

/-- `markUnhealthyCheck`: read the most recent log row's counter, append a
failure row with counter + 1, and flip the model record unhealthy when the
new counter reaches the threshold, otherwise only refresh the timestamp. -/
def markUnhealthyCheck (now : Nat) (db : Db) (modelId errorMsg : String) : Db :=
  let prev := match lastHealthEntry db.model_health_log modelId with
    | some e => e.consecutive_failures
    | none => 0
  let consecutiveFailures := prev + 1
  let db1 := { db with model_health_log :=
    ⟨modelId, false, none, some errorMsg, consecutiveFailures⟩ :: db.model_health_log }
  if UNHEALTHY_THRESHOLD ≤ consecutiveFailures then
    { db1 with models := updateModelHealth db1.models modelId (some false) now }
  else
    { db1 with models := updateModelHealth db1.models modelId none now }

-- ── Retrying dispatcher (src/backends/route-with-retry.ts) ──

/-- The JS error value as the dispatcher observes it: each field is `none`
when the corresponding property is absent. -/
structure JsError where
  status : Option Int
  statusCode : Option Int
  message : Option String
  name : Option String
  code : Option String
  causeCode : Option String
  deriving Repr, DecidableEq

/-- An error with every observed property absent. -/
def JsError.empty : JsError := ⟨none, none, none, none, none, none⟩

/-- `is429`: status 429, or a message containing `429` or (lowercased)
`rate limit`. -/
def is429 (e : JsError) : Bool :=
  e.status == some 429
  || (match e.message with | some m => strContains m "429" | none => false)
  || (match e.message with | some m => strContains (jsToLower m) "rate limit" | none => false)

/-- `isTimeout`: abort/timeout names, connection error codes, a
connection-refused cause, or a message containing `timeout`/`econnrefused`. -/
def isTimeout (e : JsError) : Bool :=
  e.name == some "AbortError"
  || e.name == some "TimeoutError"
  || e.code == some "ECONNREFUSED"
  || e.code == some "ECONNRESET"
  || e.code == some "ETIMEDOUT"
  || e.causeCode == some "ECONNREFUSED"
  || (match e.message with | some m => strContains (jsToLower m) "timeout" | none => false)
  || (match e.message with | some m => strContains (jsToLower m) "econnrefused" | none => false)

/-- `isServerError`: `status ?? statusCode` is a number in `[500, 600)`. -/
def isServerError (e : JsError) : Bool :=
  match e.status with
  | some s => decide (500 ≤ s) && decide (s < 600)
  | none =>
    match e.statusCode with
    | some s => decide (500 ≤ s) && decide (s < 600)
    | none => false

/-- `err?.message ?? String(err)`; the host stringification is opaque, so the
fallback is a fixed placeholder (no claim constrains its text). -/
def errMessage (e : JsError) : String := e.message.getD ""

/-- `UPDATE provider_rate_limits SET is_rate_limited = 1, limited_since = now,
retry_after = now + 60 seconds WHERE provider = ?` — an update of existing
rows only; providers without a row are untouched. -/
def markRateLimited (now : Nat) (db : Db) (provider : String) : Db :=
  { db with provider_rate_limits := db.provider_rate_limits.map (fun r =>
      if r.provider = provider then
        { r with is_rate_limited := true, limited_since := some now,
                 retry_after := some (now + 60) }
      else r) }

/-- `markUnhealthy`: flip the model record unhealthy directly. -/
def markUnhealthy (now : Nat) (db : Db) (modelId : String) : Db :=
  { db with models := updateModelHealth db.models modelId (some false) now }

/-- One normalized stream chunk (the fields the completion handler reads):
`usage` carries `(prompt_tokens, completion_tokens)` when present, and
`content` is the `choices[0].delta.content` text. -/
structure ChatChunk where
  usage : Option (Nat × Nat)
  content : Option String
  deriving Repr, DecidableEq

/-- A backend adapter's successful result. -/
structure BackendResponse where
  chunks : List ChatChunk
  deriving Repr, DecidableEq

/-- The dispatcher's stream response: the adapter result augmented with the
model record that actually served the request. -/
structure StreamResponse where
  chunks : List ChatChunk
  model : ModelRecord
  deriving Repr, DecidableEq

/-- The `catch` block of `routeWithRetry`: classify the error and update
persistent state, testing `is429`, then `isTimeout`, then `isServerError`. -/
def classifyFailure (now : Nat) (db : Db) (candidate : RankedCandidate)
    (err : JsError) : Db :=
  if is429 err then markRateLimited now db candidate.model.provider
  else if isTimeout err then markUnhealthy now db candidate.model.model_id
  else if isServerError err then
    markUnhealthyCheck now db candidate.model.model_id (errMessage err)
  else db

/-- `routeWithRetry`: try each candidate in ranked order; on success return
the stream tagged with the serving model; on failure classify and continue;
raise `NoAvailableModelError` (the `Except.error` leg) when all fail.  The
backend call is abstracted as the `send` oracle. -/
def routeWithRetry (now : Nat) (send : ModelRecord → Except JsError BackendResponse)
    (db : Db) : List RankedCandidate → Db × Except Unit StreamResponse
  | [] => (db, .error ())
  | candidate :: rest =>
    match send candidate.model with
    | .ok response => (db, .ok ⟨response.chunks, candidate.model⟩)
    | .error err => routeWithRetry now send (classifyFailure now db candidate err) rest

-- ── Completion handler logging (src/routes/chat-completions.ts) ──

/-- The routing decision fields the logging path reads. -/
structure RoutingDecision where
  tier_used : Nat
  selected_model : String
  deriving Repr, DecidableEq

/-- The request fields the logging path reads. -/
structure ChatRequestMeta where
  source : Option String
  channel : Option String
  deriving Repr, DecidableEq

/-- `logRequest`: insert exactly one request-log row whose `cost_usd` is
computed from the actual serving model's pricing, then (when the cost is
positive) upsert the daily and monthly budget rows. -/
def logRequest (db : Db) (decision : RoutingDecision) (actualModel : ModelRecord)
    (inputTokens outputTokens : Nat) (success : Bool)
    (request : ChatRequestMeta) (today : String) : Db :=
  let costUsd := ((inputTokens : Money) * actualModel.cost_input
    + (outputTokens : Money) * actualModel.cost_output) / 1000000
  let row : RequestLogRow :=
    ⟨request.source, request.channel, decision.tier_used, decision.selected_model,
     inputTokens, outputTokens, costUsd, success⟩
  let db1 := { db with request_log := row :: db.request_log }
  if 0 < costUsd then
    let rows1 := budgetUpsert db1.budget_tracking "daily" today costUsd inputTokens outputTokens
    let rows2 := budgetUpsert rows1 "monthly" (monthOf today) costUsd inputTokens outputTokens
    { db1 with budget_tracking := rows2 }
  else db1

/-- The streaming path's usage accumulation: `inputTokens =
chunk.usage.prompt_tokens || inputTokens` (JS falsy-or keeps the previous
value on 0), and likewise for completion tokens. -/
def accumUsage (acc : Nat × Nat) (chunk : ChatChunk) : Nat × Nat :=
  match chunk.usage with
  | none => acc
  | some u =>
    ((if u.1 ≠ 0 then u.1 else acc.1), (if u.2 ≠ 0 then u.2 else acc.2))

/-- The streaming branch after dispatch: accumulate usage over the chunks
that were delivered, then log exactly once in the `finally` block
(`success` is false when the stream raised mid-way). -/
def handleStreaming (db : Db) (decision : RoutingDecision) (resp : StreamResponse)
    (delivered : List ChatChunk) (success : Bool)
    (request : ChatRequestMeta) (today : String) : Db :=
  let usage := delivered.foldl accumUsage (0, 0)
  logRequest db decision resp.model usage.1 usage.2 success request today

/-- The non-streaming branch after dispatch: zero chunks log a failure (the
502 path); otherwise the last chunk's usage is logged as a success.  The
returned flag is the `success` column of the row that was written. -/
def handleNonStreaming (db : Db) (decision : RoutingDecision) (resp : StreamResponse)
    (request : ChatRequestMeta) (today : String) : Db × Bool :=
  match resp.chunks.getLast? with
  | none => (logRequest db decision resp.model 0 0 false request today, false)
  | some lastChunk =>
    let inputTokens := (lastChunk.usage.map (·.1)).getD 0
    let outputTokens := (lastChunk.usage.map (·.2)).getD 0
    (logRequest db decision resp.model inputTokens outputTokens true request today, true)

-- ── Tier-2 classifier (src/router/tier2-classify.ts) ──

/-- JSON values as `JSON.parse` produces them (numbers as exact rationals). -/
inductive Json where
  | null
  | bool (b : Bool)
  | num (n : ℚ)
  | str (s : String)
  | arr (xs : List Json)
  | obj (fields : List (String × Json))

/-- JS property access `j.k` on a parsed value: defined only on objects,
`undefined` (= `none`) everywhere else. -/
def Json.getField : Json → String → Option Json
  | .obj fields, k => (fields.find? (fun p => p.1 = k)).map (·.2)
  | _, _ => none

/-- The classifier output record (`complexity`/`task_type` as the runtime
strings, `estimated_tokens` as a JS number). -/
structure ClassificationResult where
  complexity : String
  task_type : String
  estimated_tokens : ℚ
  sensitive : Bool
  deriving Repr, DecidableEq

/-- `DEFAULT_CLASSIFICATION`. -/
def DEFAULT_CLASSIFICATION : ClassificationResult :=
  ⟨"medium", "conversation", 1000, false⟩

/-- The complexity whitelist. -/
def validComplexities : List String := ["simple", "medium", "complex", "reasoning"]

/-- The task-type whitelist. -/
def validTaskTypes : List String :=
  ["qa", "coding", "writing", "analysis", "extraction",
   "classification", "conversation", "tool_use", "math",
   "reasoning", "multi_step", "summarization"]

/-- The leading-fence strip `replace(/^(three backticks)(?:json)?\n?/, "")`:
greedy removal of the backticks, an optional `json`, an optional newline. -/
def stripLeadingFence (s : String) : String :=
  if jsStartsWith s "```json\n" then s.drop 8
  else if jsStartsWith s "```json" then s.drop 7
  else if jsStartsWith s "```\n" then s.drop 4
  else if jsStartsWith s "```" then s.drop 3
  else s

/-- The trailing-fence strip `replace(/\n?(three backticks)$/, "")`. -/
def stripTrailingFence (s : String) : String :=
  if jsEndsWith s "\n```" then s.dropRight 4
  else if jsEndsWith s "```" then s.dropRight 3
  else s

/-- The markdown-fence stripping of `parseClassification`: applied only when
the raw text starts with a fence. -/
def stripFences (raw : String) : String :=
  if jsStartsWith raw "```" then stripTrailingFence (stripLeadingFence raw) else raw

/-- The per-field clamping of `parseClassification` once `JSON.parse`
succeeded on a non-null value. -/
def clampClassification (parsed : Json) : ClassificationResult :=
  { complexity :=
      match parsed.getField "complexity" with
      | some (.str s) => if validComplexities.contains s then s else "medium"
      | _ => "medium"
    task_type :=
      match parsed.getField "task_type" with
      | some (.str s) => if validTaskTypes.contains s then s else "conversation"
      | _ => "conversation"
    estimated_tokens :=
      match parsed.getField "estimated_tokens" with
      | some (.num n) => if 0 < n then n else 1000
      | _ => 1000
    sensitive :=
      match parsed.getField "sensitive" with
      | some (.bool b) => b
      | _ => false }

/-- `parseClassification`: strip optional fencing, parse (the host
`JSON.parse` is the `parse` oracle; `none` means it threw), and clamp each
field.  Property access on a parsed `null` throws and is caught, yielding
the defaults. -/
def parseClassification (parse : String → Option Json) (raw : String) :
    ClassificationResult :=
  let cleaned := stripFences raw
  match parse cleaned with
  | none => DEFAULT_CLASSIFICATION
  | some .null => DEFAULT_CLASSIFICATION
  | some j => clampClassification j

/-- What `classifyRequest` observes of the classifier HTTP call: the fetch
either threw (network error / timeout / bad response body), or returned with
an ok-flag and an optional `message.content` string. -/
inductive FetchOutcome where
  | networkError
  | response (ok : Bool) (content : Option String)

/-- `classifyRequest`: returns the defaults on any error — network failure,
non-2xx, missing or (after trimming) empty content — and otherwise parses
the trimmed content. -/
def classifyRequest (parse : String → Option Json) (outcome : FetchOutcome) :
    ClassificationResult :=
  match outcome with
  | .networkError => DEFAULT_CLASSIFICATION
  | .response ok content =>
    if !ok then DEFAULT_CLASSIFICATION
    else
      match content with
      | none => DEFAULT_CLASSIFICATION
      | some c =>
        let trimmed := jsTrim c
        if trimmed = "" then DEFAULT_CLASSIFICATION
        else parseClassification parse trimmed

-- ── Router metadata extraction (src/router/router.ts) ──

/-- A chat message's `content` value: a string, `null`, or a structured
array of parts (each part's textual payload is retained so that the spec's
character count is statable). -/
inductive MessageContent where
  | str (s : String)
  | null
  | arr (parts : List String)
  deriving Repr, DecidableEq

/-- A chat message as the router reads it. -/
structure ChatMessage where
  role : String
  content : MessageContent
  deriving Repr, DecidableEq

/-- A chat request as the router reads it. -/
structure ChatRequest where
  messages : List ChatMessage
  source : Option String
  channel : Option String
  deriving Repr, DecidableEq

/-- The extracted routing metadata. -/
structure RequestMetadata where
  text_preview : String
  estimated_tokens : Nat
  has_media : Bool
  source : Option String
  channel : Option String
  deriving Repr, DecidableEq

/-- JS `m.content?.length ?? 0`: character count of a string, element count
of a structured array, 0 for `null`. -/
def contentLen : MessageContent → Nat
  | .str s => s.length
  | .null => 0
  | .arr parts => parts.length

/-- The spec sentence's reading of a content value's character count: the
characters of the text it carries. -/
def contentChars : MessageContent → Nat
  | .str s => s.length
  | .null => 0
  | .arr parts => (parts.map String.length).sum

/-- Whether a content value is a structured (array) value. -/
def isStructured : MessageContent → Bool
  | .arr _ => true
  | _ => false

/-- `extractMetadata`: last user message's string content as the preview
(else empty), `max(ceil(totalChars / 4), 100)` estimated tokens over the JS
`length` of every content value, array-content media detection, and the
request's own source/channel fields. -/
def extractMetadata (request : ChatRequest) : RequestMetadata :=
  let lastUserMessage := request.messages.reverse.find? (fun m => m.role = "user")
  let textPreview : MessageContent := match lastUserMessage with
    | none => .str ""
    | some m => match m.content with
      | .null => .str ""
      | c => c
  let totalChars := request.messages.foldl (fun sum m => sum + contentLen m.content) 0
  let estimatedTokens := Nat.max ((totalChars + 3) / 4) 100
  let hasMedia := request.messages.any (fun m => isStructured m.content)
  { text_preview := match textPreview with | .str s => s | _ => ""
    estimated_tokens := estimatedTokens
    has_media := hasMedia
    source := request.source
    channel := request.channel }

/-- Claim C9's reading of the token estimate, verbatim from the spec
sentence: `max(100, ceil(total content characters / 4))`. -/
def estimatedTokensSpec (request : ChatRequest) : Nat :=
  Nat.max (((request.messages.map (fun m => contentChars m.content)).sum + 3) / 4) 100

-- ── Accessors used to state the budget claims ──

/-- The accumulated spend of a period row, 0 when the row is absent. -/
def spendOf (rows : List BudgetRow) (ptype pkey : String) : Money :=
  (findBudgetRow rows ptype pkey).elim 0 (·.total_spend)

/-- The request count of a period row, 0 when the row is absent. -/
def countOf (rows : List BudgetRow) (ptype pkey : String) : Nat :=
  (findBudgetRow rows ptype pkey).elim 0 (·.request_count)

/-- A sequence of completed priced requests, folded through
`recordRequestCost` within one process run (same day throughout). -/
def runRequests (db : Db) (today : String) (reqs : List (ModelRecord × Nat × Nat)) : Db :=
  reqs.foldl (fun d r => (recordRequestCost d r.1 r.2.1 r.2.2 today).1) db

/-! ## Theorems -/

-- ── Budget upsert lemmas ──

theorem budgetUpsert_find_self (rows : List BudgetRow) (pt pk : String)
    (cost : Money) (i o : Nat) :
    findBudgetRow (budgetUpsert rows pt pk cost i o) pt pk =
      some (match findBudgetRow rows pt pk with
        | some r =>
          { r with total_spend := r.total_spend + cost,
                   total_input_tokens := r.total_input_tokens + i,
                   total_output_tokens := r.total_output_tokens + o,
                   request_count := r.request_count + 1 }
        | none => ⟨pt, pk, cost, i, o, 1⟩) := by
  unfold budgetUpsert findBudgetRow
  by_cases h : rows.any (fun r => decide (r.period_type = pt ∧ r.period_key = pk)) = true
  · simp only [h, if_true]
    rw [List.find?_map]
    have hpf : ((fun r : BudgetRow => decide (r.period_type = pt ∧ r.period_key = pk)) ∘
        (fun r : BudgetRow =>
          if r.period_type = pt ∧ r.period_key = pk then
            { r with total_spend := r.total_spend + cost,
                     total_input_tokens := r.total_input_tokens + i,
                     total_output_tokens := r.total_output_tokens + o,
                     request_count := r.request_count + 1 }
          else r)) =
        (fun r : BudgetRow => decide (r.period_type = pt ∧ r.period_key = pk)) := by
      funext r
      by_cases hr : r.period_type = pt ∧ r.period_key = pk
      · rw [Function.comp_apply, if_pos hr]
      · rw [Function.comp_apply, if_neg hr]
    rw [hpf]
    rcases hf : rows.find? (fun r => decide (r.period_type = pt ∧ r.period_key = pk)) with _ | r
    · rcases List.any_eq_true.mp h with ⟨x, hx, hpx⟩
      exact absurd hpx (by simpa using List.find?_eq_none.mp hf x hx)
    · have hr : r.period_type = pt ∧ r.period_key = pk := by
        have := List.find?_some hf
        simpa using this
      rw [hf, Option.map_some', if_pos hr]
  · have h' : rows.any (fun r => decide (r.period_type = pt ∧ r.period_key = pk)) = false :=
      Bool.eq_false_iff.mpr h
    simp only [h', Bool.false_eq_true, if_false]
    rw [List.find?_append]
    have hnone : rows.find? (fun r => decide (r.period_type = pt ∧ r.period_key = pk)) = none :=
      List.find?_eq_none.mpr (by
        intro x hx
        have := List.any_eq_false.mp h' x hx
        simpa using this)
    rw [hnone]
    have hsingle : (([⟨pt, pk, cost, i, o, 1⟩] : List BudgetRow).find?
        (fun r => decide (r.period_type = pt ∧ r.period_key = pk))) =
        some ⟨pt, pk, cost, i, o, 1⟩ :=
      List.find?_cons_of_pos _ (by simp)
    rw [hsingle, Option.none_or]

theorem budgetUpsert_find_other (rows : List BudgetRow) (pt pk pt2 pk2 : String)
    (cost : Money) (i o : Nat) (h : ¬(pt2 = pt ∧ pk2 = pk)) :
    findBudgetRow (budgetUpsert rows pt2 pk2 cost i o) pt pk =
      findBudgetRow rows pt pk := by
  unfold budgetUpsert findBudgetRow
  by_cases hany : rows.any (fun r => decide (r.period_type = pt2 ∧ r.period_key = pk2)) = true
  · simp only [hany, if_true]
    rw [List.find?_map]
    have hpf : ((fun r : BudgetRow => decide (r.period_type = pt ∧ r.period_key = pk)) ∘
        (fun r : BudgetRow =>
          if r.period_type = pt2 ∧ r.period_key = pk2 then
            { r with total_spend := r.total_spend + cost,
                     total_input_tokens := r.total_input_tokens + i,
                     total_output_tokens := r.total_output_tokens + o,
                     request_count := r.request_count + 1 }
          else r)) =
        (fun r : BudgetRow => decide (r.period_type = pt ∧ r.period_key = pk)) := by
      funext r
      by_cases hr : r.period_type = pt2 ∧ r.period_key = pk2
      · rw [Function.comp_apply, if_pos hr]
      · rw [Function.comp_apply, if_neg hr]
    rw [hpf]
    rcases hf : rows.find? (fun r => decide (r.period_type = pt ∧ r.period_key = pk)) with _ | r
    · rw [hf]
      rfl
    · have hr : r.period_type = pt ∧ r.period_key = pk := by
        have := List.find?_some hf
        simpa using this
      have hne : ¬(r.period_type = pt2 ∧ r.period_key = pk2) := by
        rintro ⟨h1, h2⟩
        exact h ⟨h1.symm.trans hr.1, h2.symm.trans hr.2⟩
      rw [hf, Option.map_some', if_neg hne]
  · have h' : rows.any (fun r => decide (r.period_type = pt2 ∧ r.period_key = pk2)) = false :=
      Bool.eq_false_iff.mpr hany
    simp only [h', Bool.false_eq_true, if_false]
    rw [List.find?_append]
    have hnew : (([⟨pt2, pk2, cost, i, o, 1⟩] : List BudgetRow).find?
        (fun r => decide (r.period_type = pt ∧ r.period_key = pk))) = none := by
      have hno : ¬((pt2 : String) = pt ∧ (pk2 : String) = pk) := h
      exact List.find?_eq_none.mpr (by
        intro x hx
        simp only [List.mem_singleton] at hx
        subst hx
        simpa using hno)
    rw [hnew, Option.or_none]

theorem spendOf_budgetUpsert_self (rows : List BudgetRow) (pt pk : String)
    (cost : Money) (i o : Nat) :
    spendOf (budgetUpsert rows pt pk cost i o) pt pk = spendOf rows pt pk + cost := by
  unfold spendOf
  rw [budgetUpsert_find_self]
  cases hf : findBudgetRow rows pt pk with
  | none => simp
  | some r => simp

theorem countOf_budgetUpsert_self (rows : List BudgetRow) (pt pk : String)
    (cost : Money) (i o : Nat) :
    countOf (budgetUpsert rows pt pk cost i o) pt pk = countOf rows pt pk + 1 := by
  unfold countOf
  rw [budgetUpsert_find_self]
  cases hf : findBudgetRow rows pt pk with
  | none => simp
  | some r => simp

theorem recordRequestCost_pos_step (db : Db) (model : ModelRecord)
    (inTok outTok : Nat) (today : String)
    (h : 0 < calculateCost model inTok outTok) :
    let db2 := (recordRequestCost db model inTok outTok today).1
    spendOf db2.budget_tracking "daily" today =
      spendOf db.budget_tracking "daily" today + calculateCost model inTok outTok
    ∧ countOf db2.budget_tracking "daily" today =
      countOf db.budget_tracking "daily" today + 1
    ∧ spendOf db2.budget_tracking "monthly" (monthOf today) =
      spendOf db.budget_tracking "monthly" (monthOf today) + calculateCost model inTok outTok
    ∧ countOf db2.budget_tracking "monthly" (monthOf today) =
      countOf db.budget_tracking "monthly" (monthOf today) + 1 := by
  intro db2
  have hnle : ¬ calculateCost model inTok outTok ≤ 0 := not_le.mpr h
  have hdb2 : db2.budget_tracking =
      budgetUpsert
        (budgetUpsert db.budget_tracking "daily" today
          (calculateCost model inTok outTok) inTok outTok)
        "monthly" (monthOf today) (calculateCost model inTok outTok) inTok outTok := by
    show (recordRequestCost db model inTok outTok today).1.budget_tracking = _
    unfold recordRequestCost
    rw [if_neg hnle]
  have hmd : ¬(("monthly" : String) = "daily" ∧ monthOf today = today) := by
    rintro ⟨h1, _⟩
    exact absurd h1 (by decide)
  have hdm : ∀ pk2 : String, ¬(("daily" : String) = "monthly" ∧ pk2 = monthOf today) := by
    rintro pk2 ⟨h1, _⟩
    exact absurd h1 (by decide)
  refine ⟨?_, ?_, ?_, ?_⟩
  · rw [hdb2, spendOf, budgetUpsert_find_other _ _ _ _ _ _ _ _ hmd, ← spendOf,
      spendOf_budgetUpsert_self]
  · rw [hdb2, countOf, budgetUpsert_find_other _ _ _ _ _ _ _ _ hmd, ← countOf,
      countOf_budgetUpsert_self]
  · rw [hdb2, spendOf_budgetUpsert_self, spendOf,
      budgetUpsert_find_other _ _ _ _ _ _ _ _ (hdm today), ← spendOf]
  · rw [hdb2, countOf_budgetUpsert_self, countOf,
      budgetUpsert_find_other _ _ _ _ _ _ _ _ (hdm today), ← countOf]

theorem runRequests_daily_totals (today : String) :
    ∀ (reqs : List (ModelRecord × Nat × Nat)) (db : Db),
    (∀ r ∈ reqs, 0 < calculateCost r.1 r.2.1 r.2.2) →
    spendOf (runRequests db today reqs).budget_tracking "daily" today =
      spendOf db.budget_tracking "daily" today +
        (reqs.map (fun r => calculateCost r.1 r.2.1 r.2.2)).sum
    ∧ countOf (runRequests db today reqs).budget_tracking "daily" today =
      countOf db.budget_tracking "daily" today + reqs.length := by
  intro reqs
  induction reqs with
  | nil => intro db _; simp [runRequests]
  | cons r rest ih =>
    intro db hpos
    have hr : 0 < calculateCost r.1 r.2.1 r.2.2 := hpos r (List.mem_cons_self _ _)
    have hstep := recordRequestCost_pos_step db r.1 r.2.1 r.2.2 today hr
    have hrun : runRequests db today (r :: rest) =
        runRequests ((recordRequestCost db r.1 r.2.1 r.2.2 today).1) today rest := rfl
    have hrest := ih ((recordRequestCost db r.1 r.2.1 r.2.2 today).1)
      (fun x hx => hpos x (List.mem_cons_of_mem _ hx))
    constructor
    · rw [hrun, hrest.1, hstep.1]
      simp [List.map_cons, List.sum_cons]
      ring
    · rw [hrun, hrest.2, hstep.2.1]
      simp [List.length_cons]
      omega

/-- Claim C7: `recordRequestCost` is a no-op when the computed cost is
non-positive; otherwise it upserts both the daily and the monthly budget
row, and within one process run, after N priced requests totalling cost C
starting from a zero daily row, the daily row's `total_spend` is C and its
`request_count` is N. -/
theorem recordRequestCost_correct (db : Db) (model : ModelRecord)
    (inTok outTok : Nat) (today : String) :
    (calculateCost model inTok outTok ≤ 0 →
      recordRequestCost db model inTok outTok today = (db, 0))
    ∧ (0 < calculateCost model inTok outTok →
        let db2 := (recordRequestCost db model inTok outTok today).1
        spendOf db2.budget_tracking "daily" today =
          spendOf db.budget_tracking "daily" today + calculateCost model inTok outTok
        ∧ countOf db2.budget_tracking "daily" today =
          countOf db.budget_tracking "daily" today + 1
        ∧ spendOf db2.budget_tracking "monthly" (monthOf today) =
          spendOf db.budget_tracking "monthly" (monthOf today) + calculateCost model inTok outTok
        ∧ countOf db2.budget_tracking "monthly" (monthOf today) =
          countOf db.budget_tracking "monthly" (monthOf today) + 1)
    ∧ (∀ reqs : List (ModelRecord × Nat × Nat),
        (∀ r ∈ reqs, 0 < calculateCost r.1 r.2.1 r.2.2) →
        spendOf db.budget_tracking "daily" today = 0 →
        countOf db.budget_tracking "daily" today = 0 →
        spendOf (runRequests db today reqs).budget_tracking "daily" today =
          (reqs.map (fun r => calculateCost r.1 r.2.1 r.2.2)).sum
        ∧ countOf (runRequests db today reqs).budget_tracking "daily" today = reqs.length) := by
  refine ⟨?_, ?_, ?_⟩
  · intro hle
    unfold recordRequestCost
    rw [if_pos hle]
  · intro hpos
    exact recordRequestCost_pos_step db model inTok outTok today hpos
  · intro reqs hpos hs0 hc0
    have := runRequests_daily_totals today reqs db hpos
    rw [hs0, hc0] at this
    simpa using this

/-- Witness for C7: a concrete two-request run on a priced model starting
from an empty ledger. -/
theorem recordRequestCost_correct_witness :
    spendOf (runRequests
        ⟨none, [], [], [], [], [], []⟩ "2026-10-11"
        [(⟨"cloud/a", "cloudco", "cloud", 80, 200000, 3, 15, true, true, none⟩, 1000, 500),
         (⟨"cloud/a", "cloudco", "cloud", 80, 200000, 3, 15, true, true, none⟩, 2000, 1000)]
      ).budget_tracking "daily" "2026-10-11" =
      ((21 : Money) / 2000) + ((21 : Money) / 1000)
    ∧ countOf (runRequests
        ⟨none, [], [], [], [], [], []⟩ "2026-10-11"
        [(⟨"cloud/a", "cloudco", "cloud", 80, 200000, 3, 15, true, true, none⟩, 1000, 500),
         (⟨"cloud/a", "cloudco", "cloud", 80, 200000, 3, 15, true, true, none⟩, 2000, 1000)]
      ).budget_tracking "daily" "2026-10-11" = 2 := by
  have h := (recordRequestCost_correct
    ⟨none, [], [], [], [], [], []⟩
    ⟨"cloud/a", "cloudco", "cloud", 80, 200000, 3, 15, true, true, none⟩
    0 0 "2026-10-11").2.2
    [(⟨"cloud/a", "cloudco", "cloud", 80, 200000, 3, 15, true, true, none⟩, 1000, 500),
     (⟨"cloud/a", "cloudco", "cloud", 80, 200000, 3, 15, true, true, none⟩, 2000, 1000)]
    (by
      intro r hr
      simp only [List.mem_cons, List.mem_singleton] at hr
      rcases hr with h1 | h1 | h1
      · rw [h1]; norm_num [calculateCost]
      · rw [h1]; norm_num [calculateCost]
      · cases h1)
    (by simp [spendOf, findBudgetRow])
    (by simp [countOf, findBudgetRow])
  refine ⟨?_, ?_⟩
  · rw [h.1]
    norm_num [calculateCost]
  · rw [h.2]
    rfl

-- ── Budget gate (claim C8) ──

/-- Claim C8 counterexample: with a configured daily limit of 0 and no
budget rows at all, `isBudgetExceeded` returns false, while the claim's
"accumulated spend is 0 when no row exists" reading compares 0 ≥ 0 and
yields true. -/
theorem isBudgetExceeded_claim_counterexample :
    isBudgetExceeded
      ⟨some ⟨"local,lan,cloud", 5, 0, 200, none⟩, [], [], [], [], [], []⟩
      "2026-10-11" = false
    ∧ isBudgetExceededSpec ⟨"local,lan,cloud", 5, 0, 200, none⟩ [] "2026-10-11" = true := by
  constructor
  · rfl
  · rfl

/-- Claim C8 (amended): `isBudgetExceeded` is true iff a daily row for the
current day exists with spend at or above the daily limit, or a monthly row
for the current month exists with spend at or above the monthly limit; a
period with no row never triggers the gate.  When both limits are positive
this coincides with the claim's reading that treats a missing row as
accumulated spend 0. -/
theorem isBudgetExceeded_correct (db : Db) (p : RoutingPolicy) (today : String)
    (hp : db.policy = some p) :
    (isBudgetExceeded db today = true ↔
      (∃ r, findBudgetRow db.budget_tracking "daily" today = some r ∧
        p.budget_daily_usd ≤ r.total_spend) ∨
      (∃ r, findBudgetRow db.budget_tracking "monthly" (monthOf today) = some r ∧
        p.budget_monthly_usd ≤ r.total_spend))
    ∧ (0 < p.budget_daily_usd → 0 < p.budget_monthly_usd →
        isBudgetExceeded db today = isBudgetExceededSpec p db.budget_tracking today) := by
  unfold isBudgetExceeded isBudgetExceededSpec
  rw [hp]
  constructor
  · cases hd : findBudgetRow db.budget_tracking "daily" today with
    | none =>
      cases hm : findBudgetRow db.budget_tracking "monthly" (monthOf today) with
      | none => simp
      | some rm => simp
    | some rd =>
      cases hm : findBudgetRow db.budget_tracking "monthly" (monthOf today) with
      | none => simp
      | some rm => simp
  · intro h1 h2
    have hd1 : ¬ p.budget_daily_usd ≤ (0 : Money) := not_le.mpr h1
    have hm1 : ¬ p.budget_monthly_usd ≤ (0 : Money) := not_le.mpr h2
    cases hd : findBudgetRow db.budget_tracking "daily" today with
    | none =>
      cases hm : findBudgetRow db.budget_tracking "monthly" (monthOf today) with
      | none => simp [hd1, hm1]
      | some rm => simp [hd1]
    | some rd =>
      cases hm : findBudgetRow db.budget_tracking "monthly" (monthOf today) with
      | none => simp [hm1]
      | some rm => simp

/-- Witness for C8's amended theorem at a concrete state: a daily row at
exactly the daily limit trips the gate, and the code agrees with the
spend-0 reading because both limits are positive. -/
theorem isBudgetExceeded_correct_witness :
    isBudgetExceeded
        ⟨some ⟨"local,lan,cloud", 5, 10, 200, none⟩, [], [], [],
         [⟨"daily", "2026-10-11", 10, 1000, 500, 1⟩], [], []⟩ "2026-10-11" =
      isBudgetExceededSpec ⟨"local,lan,cloud", 5, 10, 200, none⟩
        [⟨"daily", "2026-10-11", 10, 1000, 500, 1⟩] "2026-10-11"
    ∧ isBudgetExceeded
        ⟨some ⟨"local,lan,cloud", 5, 10, 200, none⟩, [], [], [],
         [⟨"daily", "2026-10-11", 10, 1000, 500, 1⟩], [], []⟩ "2026-10-11" = true := by
  have h := isBudgetExceeded_correct
    ⟨some ⟨"local,lan,cloud", 5, 10, 200, none⟩, [], [], [],
     [⟨"daily", "2026-10-11", 10, 1000, 500, 1⟩], [], []⟩
    ⟨"local,lan,cloud", 5, 10, 200, none⟩ "2026-10-11" rfl
  refine ⟨h.2 (by norm_num) (by norm_num), ?_⟩
  exact h.1.mpr (Or.inl ⟨⟨"daily", "2026-10-11", 10, 1000, 500, 1⟩, by rfl, le_refl _⟩)

-- ── Health probe bookkeeping (claim C6) ──

/-- Claim C6: a successful probe appends a log row with a zero
consecutive-failure counter and sets the model record healthy; a failed
probe appends a row whose counter is the previous row's counter plus one,
flips the model record unhealthy exactly when the new counter reaches the
threshold of 3, and otherwise leaves the healthy flag unchanged while
refreshing `last_health_check`. -/
theorem health_probe_outcomes (now : Nat) (db : Db) (id : String) (lat : Nat) (msg : String) :
    ((markHealthy now db id lat).model_health_log =
        ⟨id, true, some lat, none, 0⟩ :: db.model_health_log
      ∧ (markHealthy now db id lat).models = db.models.map (fun m =>
          if m.model_id = id then
            { m with is_healthy := true, last_health_check := some now }
          else m))
    ∧ ((markUnhealthyCheck now db id msg).model_health_log =
        ⟨id, false, none, some msg,
          ((lastHealthEntry db.model_health_log id).map
            (fun e => e.consecutive_failures)).getD 0 + 1⟩ :: db.model_health_log
      ∧ (markUnhealthyCheck now db id msg).models = db.models.map (fun m =>
          if m.model_id = id then
            { m with
              is_healthy :=
                if UNHEALTHY_THRESHOLD ≤
                    ((lastHealthEntry db.model_health_log id).map
                      (fun e => e.consecutive_failures)).getD 0 + 1
                  then false else m.is_healthy,
              last_health_check := some now }
          else m)) := by
  have hprev : (match lastHealthEntry db.model_health_log id with
      | some e => e.consecutive_failures
      | none => 0) =
      ((lastHealthEntry db.model_health_log id).map
        (fun e => e.consecutive_failures)).getD 0 := by
    cases lastHealthEntry db.model_health_log id <;> rfl
  refine ⟨⟨rfl, rfl⟩, ?_, ?_⟩
  · unfold markUnhealthyCheck
    rw [← hprev]
    by_cases hth : UNHEALTHY_THRESHOLD ≤
        (match lastHealthEntry db.model_health_log id with
         | some e => e.consecutive_failures
         | none => 0) + 1
    · rw [if_pos hth]
    · rw [if_neg hth]
  · unfold markUnhealthyCheck updateModelHealth
    rw [← hprev]
    by_cases hth : UNHEALTHY_THRESHOLD ≤
        (match lastHealthEntry db.model_health_log id with
         | some e => e.consecutive_failures
         | none => 0) + 1
    · rw [if_pos hth]
      simp only [hth, if_true]
    · rw [if_neg hth]
      simp only [hth, if_false]

-- ── Rate-limit marking without a provider row (claim C10) ──

theorem clearExpired_provider_preserved (now2 : Nat) (rows : List RateLimitRow)
    (r2 : RateLimitRow) (h : r2 ∈ clearExpiredRateLimits now2 rows) :
    ∃ r ∈ rows, r2.provider = r.provider := by
  unfold clearExpiredRateLimits at h
  obtain ⟨r, hr, heq⟩ := List.mem_map.mp h
  refine ⟨r, hr, ?_⟩
  rw [← heq]
  by_cases hc : (r.is_rate_limited && (match r.retry_after with
      | some t => decide (t ≤ now2)
      | none => false)) = true
  · rw [if_pos hc]
  · rw [if_neg hc]

/-- Claim C10: `markRateLimited` is an UPDATE of existing rows, so for a
provider with no pre-existing `provider_rate_limits` row the database is
left entirely unchanged, the provider never appears in the rate-limited
set that candidate selection reads (even after the lazy expiry sweep), and
the selector's rate-limit filter never drops that provider's models. -/
theorem markRateLimited_no_row (now : Nat) (db : Db) (p : String)
    (h : ∀ r ∈ db.provider_rate_limits, r.provider ≠ p) :
    markRateLimited now db p = db
    ∧ (∀ now2, p ∉ rateLimitedProviders (clearExpiredRateLimits now2 db.provider_rate_limits))
    ∧ (∀ (now2 : Nat) (ms : List ModelRecord) (m : ModelRecord), m ∈ ms → m.provider = p →
        m ∈ ms.filter (fun mm =>
          !((rateLimitedProviders
              (clearExpiredRateLimits now2 db.provider_rate_limits)).contains mm.provider))) := by
  have hnotin : ∀ now2, p ∉ rateLimitedProviders (clearExpiredRateLimits now2 db.provider_rate_limits) := by
    intro now2 hmem
    unfold rateLimitedProviders at hmem
    obtain ⟨r2, hr2, hp2⟩ := List.mem_map.mp hmem
    have hr2' := List.mem_filter.mp hr2
    obtain ⟨r, hr, hprov⟩ := clearExpired_provider_preserved now2 db.provider_rate_limits r2 hr2'.1
    exact h r hr (by rw [← hprov, hp2])
  refine ⟨?_, hnotin, ?_⟩
  · unfold markRateLimited
    have hmap : ∀ rows : List RateLimitRow, (∀ r ∈ rows, r.provider ≠ p) →
        rows.map (fun r =>
          if r.provider = p then
            { r with is_rate_limited := true, limited_since := some now,
                     retry_after := some (now + 60) }
          else r) = rows := by
      intro rows hrows
      induction rows with
      | nil => rfl
      | cons a t ih =>
        rw [List.map_cons, if_neg (hrows a (List.mem_cons_self a t)),
          ih (fun x hx => hrows x (List.mem_cons_of_mem a hx))]
    rw [hmap db.provider_rate_limits h]
  · intro now2 ms m hm hmp
    refine List.mem_filter.mpr ⟨hm, ?_⟩
    have hcf : ((rateLimitedProviders
        (clearExpiredRateLimits now2 db.provider_rate_limits)).contains m.provider) = false := by
      rw [hmp]
      simp only [List.contains, List.elem_eq_mem, decide_eq_false_iff_not]
      exact hnotin now2
    rw [hcf]
    rfl

/-- Witness for C10: a 429 against a provider that has no
`provider_rate_limits` row leaves the table untouched and the provider
outside the rate-limited set. -/
theorem markRateLimited_no_row_witness :
    markRateLimited 5
        ⟨none, [], [], [⟨"openai", true, some 0, some 100⟩], [], [], []⟩ "groq" =
      ⟨none, [], [], [⟨"openai", true, some 0, some 100⟩], [], [], []⟩
    ∧ "groq" ∉ rateLimitedProviders (clearExpiredRateLimits 0
        ([⟨"openai", true, some 0, some 100⟩] : List RateLimitRow)) := by
  have h := markRateLimited_no_row 5
    ⟨none, [], [], [⟨"openai", true, some 0, some 100⟩], [], [], []⟩ "groq"
    (by
      intro r hr
      simp only [List.mem_singleton] at hr
      subst hr
      decide)
  exact ⟨h.1, h.2.1 0⟩

-- ── Request metadata extraction (claim C9) ──

theorem foldl_contentLen (l : List ChatMessage) :
    ∀ a : Nat, l.foldl (fun sum m => sum + contentLen m.content) a =
      a + (l.map (fun m => contentLen m.content)).sum := by
  induction l with
  | nil => intro a; simp
  | cons x t ih =>
    intro a
    rw [List.foldl_cons, ih, List.map_cons, List.sum_cons, Nat.add_assoc]

/-- Claim C9 counterexample: one user message whose content is a structured
array of two 300-character text parts.  The claim's "total content
characters" reading gives `max(100, ceil(600 / 4)) = 150` estimated tokens,
but the code sums the JS `length` of the array — 2 elements — and yields
100. -/
theorem extractMetadata_claim_counterexample :
    (extractMetadata ⟨[⟨"user", .arr
        [String.mk (List.replicate 300 'a'), String.mk (List.replicate 300 'b')]⟩],
      none, none⟩).estimated_tokens = 100
    ∧ estimatedTokensSpec ⟨[⟨"user", .arr
        [String.mk (List.replicate 300 'a'), String.mk (List.replicate 300 'b')]⟩],
      none, none⟩ = 150 := by
  constructor
  · rfl
  · set_option maxRecDepth 4000 in rfl

/-- Claim C9 (amended): `text_preview` is the string content of the last
user-role message (empty when there is no user message or its content is
not a string); `estimated_tokens` is `max(100, ceil(totalLen / 4))` where
each message contributes the JS `length` of its content — character count
for a string, element count for a structured array, 0 for null;
`has_media` holds iff some message has structured content; and
source/channel are the request's own fields. -/
theorem extractMetadata_correct (request : ChatRequest) :
    ((∀ m ∈ request.messages, m.role ≠ "user") →
      (extractMetadata request).text_preview = "")
    ∧ (∀ mm, request.messages.reverse.find? (fun m => m.role = "user") = some mm →
        (extractMetadata request).text_preview =
          (match mm.content with | .str s => s | _ => ""))
    ∧ (extractMetadata request).estimated_tokens =
        Nat.max (((request.messages.map (fun m => contentLen m.content)).sum + 3) / 4) 100
    ∧ ((extractMetadata request).has_media = true ↔
        ∃ m ∈ request.messages, isStructured m.content = true)
    ∧ (extractMetadata request).source = request.source
    ∧ (extractMetadata request).channel = request.channel := by
  refine ⟨?_, ?_, ?_, ?_, rfl, rfl⟩
  · intro hno
    have hfind : request.messages.reverse.find? (fun m => decide (m.role = "user")) = none :=
      List.find?_eq_none.mpr (by
        intro x hx
        have := hno x (List.mem_reverse.mp hx)
        simpa using this)
    show (extractMetadata request).text_preview = ""
    unfold extractMetadata
    rw [hfind]
  · intro mm hfind
    obtain ⟨mrole, mcontent⟩ := mm
    show (extractMetadata request).text_preview = _
    unfold extractMetadata
    rw [hfind]
    cases mcontent with
    | str s => rfl
    | null => rfl
    | arr parts => rfl
  · show (extractMetadata request).estimated_tokens = _
    unfold extractMetadata
    rw [foldl_contentLen request.messages 0, Nat.zero_add]
  · show (extractMetadata request).has_media = true ↔ _
    unfold extractMetadata
    simp [List.any_eq_true]

/-- Witness for C9's amended theorem at a concrete two-message request. -/
theorem extractMetadata_correct_witness :
    (extractMetadata ⟨[⟨"system", .str "sys"⟩, ⟨"user", .str "hello"⟩],
      some "webhook", none⟩).text_preview = "hello"
    ∧ (extractMetadata ⟨[⟨"system", .str "sys"⟩, ⟨"user", .str "hello"⟩],
      some "webhook", none⟩).estimated_tokens = 100 := by
  have h := extractMetadata_correct
    ⟨[⟨"system", .str "sys"⟩, ⟨"user", .str "hello"⟩], some "webhook", none⟩
  refine ⟨?_, ?_⟩
  · have h2 := h.2.1 ⟨"user", .str "hello"⟩ (by rfl)
    exact h2
  · rw [h.2.2.1]
    rfl

-- ── Tier-2 classifier (claim C5) ──

/-- Claim C5: the Tier-2 classifier never propagates an exception — every
error path (network failure, non-2xx response, missing or empty content,
unparseable output, or a parsed `null`) yields the full default
classification — and when the output does parse each field is individually
clamped: a whitelisted value is kept, anything else falls back to that
field's default, so the result always has a whitelisted complexity, a
whitelisted task type and a positive token estimate. -/
theorem classifyRequest_never_propagates (parse : String → Option Json) :
    (classifyRequest parse .networkError = DEFAULT_CLASSIFICATION)
    ∧ (∀ c, classifyRequest parse (.response false c) = DEFAULT_CLASSIFICATION)
    ∧ (classifyRequest parse (.response true none) = DEFAULT_CLASSIFICATION)
    ∧ (∀ s, jsTrim s = "" →
        classifyRequest parse (.response true (some s)) = DEFAULT_CLASSIFICATION)
    ∧ (∀ s, jsTrim s ≠ "" → parse (stripFences (jsTrim s)) = none →
        classifyRequest parse (.response true (some s)) = DEFAULT_CLASSIFICATION)
    ∧ (∀ s, jsTrim s ≠ "" → parse (stripFences (jsTrim s)) = some .null →
        classifyRequest parse (.response true (some s)) = DEFAULT_CLASSIFICATION)
    ∧ (∀ s j, jsTrim s ≠ "" → parse (stripFences (jsTrim s)) = some j → j ≠ .null →
        classifyRequest parse (.response true (some s)) = clampClassification j)
    ∧ (∀ j,
        (clampClassification j).complexity ∈ validComplexities
        ∧ (clampClassification j).task_type ∈ validTaskTypes
        ∧ 0 < (clampClassification j).estimated_tokens)
    ∧ (∀ j s, j.getField "complexity" = some (.str s) →
        validComplexities.contains s = true → (clampClassification j).complexity = s)
    ∧ (∀ j s, j.getField "complexity" = some (.str s) →
        validComplexities.contains s = false →
        (clampClassification j).complexity = "medium")
    ∧ (∀ j s, j.getField "task_type" = some (.str s) →
        validTaskTypes.contains s = true → (clampClassification j).task_type = s)
    ∧ (∀ j s, j.getField "task_type" = some (.str s) →
        validTaskTypes.contains s = false →
        (clampClassification j).task_type = "conversation")
    ∧ (∀ j n, j.getField "estimated_tokens" = some (.num n) → 0 < n →
        (clampClassification j).estimated_tokens = n)
    ∧ (∀ j n, j.getField "estimated_tokens" = some (.num n) → ¬(0 < n) →
        (clampClassification j).estimated_tokens = 1000)
    ∧ (∀ j b, j.getField "sensitive" = some (.bool b) →
        (clampClassification j).sensitive = b) := by
  refine ⟨rfl, fun c => rfl, rfl, ?_, ?_, ?_, ?_, ?_, ?_, ?_, ?_, ?_, ?_, ?_, ?_⟩
  · intro s hs
    show (if !true then DEFAULT_CLASSIFICATION else _) = DEFAULT_CLASSIFICATION
    simp only [Bool.not_true, Bool.false_eq_true, if_false]
    rw [if_pos hs]
  · intro s hs hp
    show (if !true then DEFAULT_CLASSIFICATION else _) = DEFAULT_CLASSIFICATION
    simp only [Bool.not_true, Bool.false_eq_true, if_false]
    rw [if_neg hs]
    unfold parseClassification
    simp only [hp]
  · intro s hs hp
    show (if !true then DEFAULT_CLASSIFICATION else _) = DEFAULT_CLASSIFICATION
    simp only [Bool.not_true, Bool.false_eq_true, if_false]
    rw [if_neg hs]
    unfold parseClassification
    simp only [hp]
  · intro s j hs hp hj
    show (if !true then DEFAULT_CLASSIFICATION else _) = clampClassification j
    simp only [Bool.not_true, Bool.false_eq_true, if_false]
    rw [if_neg hs]
    unfold parseClassification
    simp only [hp]
  · intro j
    refine ⟨?_, ?_, ?_⟩
    · unfold clampClassification
      rcases hg : j.getField "complexity" with _ | v
      · show ("medium" : String) ∈ validComplexities
        decide
      · cases v with
        | str s =>
          show (if validComplexities.contains s = true then s else "medium") ∈ validComplexities
          by_cases hc : validComplexities.contains s = true
          · rw [if_pos hc]
            simpa using hc
          · rw [if_neg hc]
            decide
        | null =>
          show ("medium" : String) ∈ validComplexities
          decide
        | bool b =>
          show ("medium" : String) ∈ validComplexities
          decide
        | num n =>
          show ("medium" : String) ∈ validComplexities
          decide
        | arr xs =>
          show ("medium" : String) ∈ validComplexities
          decide
        | obj fields =>
          show ("medium" : String) ∈ validComplexities
          decide
    · unfold clampClassification
      rcases hg : j.getField "task_type" with _ | v
      · show ("conversation" : String) ∈ validTaskTypes
        decide
      · cases v with
        | str s =>
          show (if validTaskTypes.contains s = true then s else "conversation") ∈ validTaskTypes
          by_cases hc : validTaskTypes.contains s = true
          · rw [if_pos hc]
            simpa using hc
          · rw [if_neg hc]
            decide
        | null =>
          show ("conversation" : String) ∈ validTaskTypes
          decide
        | bool b =>
          show ("conversation" : String) ∈ validTaskTypes
          decide
        | num n =>
          show ("conversation" : String) ∈ validTaskTypes
          decide
        | arr xs =>
          show ("conversation" : String) ∈ validTaskTypes
          decide
        | obj fields =>
          show ("conversation" : String) ∈ validTaskTypes
          decide
    · unfold clampClassification
      rcases hg : j.getField "estimated_tokens" with _ | v
      · show (0 : ℚ) < 1000
        norm_num
      · cases v with
        | num n =>
          show (0 : ℚ) < if 0 < n then n else 1000
          by_cases hn : 0 < n
          · rw [if_pos hn]
            exact hn
          · rw [if_neg hn]
            norm_num
        | null =>
          show (0 : ℚ) < 1000
          norm_num
        | bool b =>
          show (0 : ℚ) < 1000
          norm_num
        | str s =>
          show (0 : ℚ) < 1000
          norm_num
        | arr xs =>
          show (0 : ℚ) < 1000
          norm_num
        | obj fields =>
          show (0 : ℚ) < 1000
          norm_num
  · intro j s hg hc
    unfold clampClassification
    rw [hg]
    show (if validComplexities.contains s = true then s else "medium") = s
    rw [if_pos hc]
  · intro j s hg hc
    unfold clampClassification
    rw [hg]
    show (if validComplexities.contains s = true then s else "medium") = "medium"
    rw [if_neg (by rw [hc]; exact Bool.false_ne_true)]
  · intro j s hg hc
    unfold clampClassification
    rw [hg]
    show (if validTaskTypes.contains s = true then s else "conversation") = s
    rw [if_pos hc]
  · intro j s hg hc
    unfold clampClassification
    rw [hg]
    show (if validTaskTypes.contains s = true then s else "conversation") = "conversation"
    rw [if_neg (by rw [hc]; exact Bool.false_ne_true)]
  · intro j n hg hn
    unfold clampClassification
    rw [hg]
    show (if 0 < n then n else 1000) = n
    rw [if_pos hn]
  · intro j n hg hn
    unfold clampClassification
    rw [hg]
    show (if 0 < n then n else 1000) = 1000
    rw [if_neg hn]
  · intro j b hg
    unfold clampClassification
    rw [hg]

/-- Witness for C5: a parsed object with an out-of-whitelist complexity, a
whitelisted task type, a positive token estimate and a boolean sensitive
flag is clamped field by field. -/
theorem classifyRequest_never_propagates_witness :
    classifyRequest
        (fun _ => some (Json.obj [("complexity", .str "bogus"), ("task_type", .str "coding"),
          ("estimated_tokens", .num 50), ("sensitive", .bool true)]))
        (.response true (some "hello")) =
      ⟨"medium", "coding", 50, true⟩ := by
  have h := (classifyRequest_never_propagates
    (fun _ => some (Json.obj [("complexity", .str "bogus"), ("task_type", .str "coding"),
      ("estimated_tokens", .num 50), ("sensitive", .bool true)]))).2.2.2.2.2.2.1
    "hello"
    (Json.obj [("complexity", .str "bogus"), ("task_type", .str "coding"),
      ("estimated_tokens", .num 50), ("sensitive", .bool true)])
    (by decide) rfl (fun hx => Json.noConfusion hx)
  rw [h]
  rfl

-- ── Candidate selection lemmas (claims C1 and C4) ──

theorem mem_buildRanked (cand : RankedCandidate) :
    ∀ (l : List ModelRecord) (i : Nat), cand ∈ buildRanked i l →
      cand.model ∈ l ∧ cand.score = cand.model.quality_score := by
  intro l
  induction l with
  | nil => intro i h; cases h
  | cons m ms ih =>
    intro i h
    rcases List.mem_cons.mp h with h1 | h1
    · subst h1
      exact ⟨List.mem_cons_self _ _, rfl⟩
    · obtain ⟨hm, hs⟩ := ih (i + 1) h1
      exact ⟨List.mem_cons_of_mem _ hm, hs⟩

theorem mem_insertModel (lo : List String) (x y : ModelRecord) :
    ∀ l : List ModelRecord, x ∈ insertModel lo y l ↔ x = y ∨ x ∈ l := by
  intro l
  induction l with
  | nil => simp [insertModel]
  | cons a t ih =>
    unfold insertModel
    by_cases hc : keyLt lo a y = true
    · rw [if_pos hc]
      simp only [List.mem_cons, ih]
      tauto
    · rw [if_neg hc]
      simp only [List.mem_cons]

theorem mem_sortModels (lo : List String) (x : ModelRecord) :
    ∀ l : List ModelRecord, x ∈ sortModels lo l ↔ x ∈ l := by
  intro l
  induction l with
  | nil => simp [sortModels]
  | cons a t ih =>
    unfold sortModels
    rw [mem_insertModel, ih, List.mem_cons]

theorem mem_applyQualityTolerance (l : List ModelRecord) (floor tol : Int)
    (x : ModelRecord) (h : x ∈ applyQualityTolerance l floor tol) :
    x ∈ l ∧ (floor ≤ x.quality_score ∨
      (floor - tol ≤ x.quality_score ∧ x.cost_output = 0)) := by
  unfold applyQualityTolerance at h
  by_cases hs : (l.filter (fun m => floor ≤ m.quality_score)).length > 0
  · rw [if_pos hs] at h
    have := List.mem_filter.mp h
    refine ⟨this.1, Or.inl ?_⟩
    simpa using this.2
  · rw [if_neg hs] at h
    by_cases ht : (l.filter (fun m =>
        floor - tol ≤ m.quality_score ∧ m.cost_output = 0)).length > 0
    · rw [if_pos ht] at h
      have := List.mem_filter.mp h
      refine ⟨this.1, Or.inr ?_⟩
      simpa using this.2
    · rw [if_neg ht] at h
      cases h

theorem applyQualityTolerance_strict (l : List ModelRecord) (floor tol : Int)
    (hex : ∃ m ∈ l, floor ≤ m.quality_score) :
    ∀ x ∈ applyQualityTolerance l floor tol, floor ≤ x.quality_score := by
  intro x hx
  obtain ⟨m, hm, hq⟩ := hex
  have hmem : m ∈ l.filter (fun m => floor ≤ m.quality_score) :=
    List.mem_filter.mpr ⟨hm, by simpa using hq⟩
  have hlen : (l.filter (fun m => floor ≤ m.quality_score)).length > 0 :=
    List.length_pos.mpr (List.ne_nil_of_mem hmem)
  unfold applyQualityTolerance at hx
  rw [if_pos hlen] at hx
  have := List.mem_filter.mp hx
  simpa using this.2

theorem mem_hardFiltered (now : Nat) (today : String) (db : Db) (c : SelectionCriteria)
    (x : ModelRecord) (h : x ∈ hardFiltered now today db c) :
    x.is_enabled = true
    ∧ x.is_healthy = true
    ∧ (∀ cap, c.required_capability = some cap → (x.model_id, cap) ∈ db.model_capabilities)
    ∧ x.provider ∉ rateLimitedProviders (clearExpiredRateLimits now db.provider_rate_limits)
    ∧ c.estimated_tokens ≤ x.context_window
    ∧ (c.sensitive = true → x.location ≠ "cloud")
    ∧ (isBudgetExceeded db today = true → x.location ≠ "cloud") := by
  unfold hardFiltered at h
  have hbudget : (isBudgetExceeded db today = true → x.location ≠ "cloud") ∧
      x ∈ (if c.sensitive then
            ((baseModels db c).filter (fun m =>
                !((rateLimitedProviders
                    (clearExpiredRateLimits now db.provider_rate_limits)).contains m.provider))
              |>.filter (fun m => c.estimated_tokens ≤ m.context_window)
              |>.filter (fun m => m.location ≠ "cloud"))
          else
            ((baseModels db c).filter (fun m =>
                !((rateLimitedProviders
                    (clearExpiredRateLimits now db.provider_rate_limits)).contains m.provider))
              |>.filter (fun m => c.estimated_tokens ≤ m.context_window))) := by
    by_cases hb : isBudgetExceeded db today = true
    · rw [if_pos hb] at h
      have := List.mem_filter.mp h
      exact ⟨fun _ => by simpa using this.2, this.1⟩
    · rw [if_neg hb] at h
      exact ⟨fun hb2 => absurd hb2 hb, h⟩
  obtain ⟨hbud, h⟩ := hbudget
  have hsens : (c.sensitive = true → x.location ≠ "cloud") ∧
      x ∈ ((baseModels db c).filter (fun m =>
            !((rateLimitedProviders
                (clearExpiredRateLimits now db.provider_rate_limits)).contains m.provider))
          |>.filter (fun m => c.estimated_tokens ≤ m.context_window)) := by
    by_cases hsv : c.sensitive = true
    · rw [if_pos hsv] at h
      have := List.mem_filter.mp h
      exact ⟨fun _ => by simpa using this.2, this.1⟩
    · rw [if_neg hsv] at h
      exact ⟨fun hs2 => absurd hs2 hsv, h⟩
  obtain ⟨hsen, h⟩ := hsens
  have hctx := List.mem_filter.mp h
  have hrl := List.mem_filter.mp hctx.1
  have hbase := hrl.1
  have hnotlimited : x.provider ∉
      rateLimitedProviders (clearExpiredRateLimits now db.provider_rate_limits) := by
    have := hrl.2
    simp only [Bool.not_eq_true', List.contains, List.elem_eq_mem,
      decide_eq_false_iff_not] at this
    exact this
  have henabled : x.is_enabled = true ∧ x.is_healthy = true ∧
      (∀ cap, c.required_capability = some cap →
        (x.model_id, cap) ∈ db.model_capabilities) := by
    unfold baseModels at hbase
    rcases hcap : c.required_capability with _ | cap
    · rw [hcap] at hbase
      have := List.mem_filter.mp hbase
      have hb := this.2
      simp only [Bool.and_eq_true] at hb
      exact ⟨hb.1, hb.2, fun cap2 hcap2 => Option.noConfusion hcap2⟩
    · rw [hcap] at hbase
      have := List.mem_filter.mp hbase
      have hb := this.2
      simp only [Bool.and_eq_true] at hb
      refine ⟨hb.1.1, hb.1.2, ?_⟩
      intro cap2 hcap2
      injection hcap2 with hcap2
      subst hcap2
      have := hb.2
      simpa using this
  exact ⟨henabled.1, henabled.2.1, henabled.2.2, hnotlimited,
    by simpa using hctx.2, hsen, hbud⟩

/-- Claim C1: every model returned by `selectCandidates` passes all hard
filters — enabled, healthy, capability when one is required, provider not
rate-limited, context window at least the estimated tokens, non-cloud when
the request is sensitive or the budget is exceeded — and its quality either
meets the floor, or (only when no hard-filter survivor meets the floor) is
within tolerance with zero output price; whenever any survivor meets the
strict floor, every returned model does. -/
theorem selectCandidates_hard_filters (now : Nat) (today : String) (db : Db)
    (c : SelectionCriteria) (policy : RoutingPolicy) (res : List RankedCandidate)
    (hpol : db.policy = some policy)
    (hsel : selectCandidates now today db c = some res) :
    ∀ cand ∈ res,
      cand.model.is_enabled = true
      ∧ cand.model.is_healthy = true
      ∧ (∀ cap, c.required_capability = some cap →
          (cand.model.model_id, cap) ∈ db.model_capabilities)
      ∧ cand.model.provider ∉
          rateLimitedProviders (clearExpiredRateLimits now db.provider_rate_limits)
      ∧ c.estimated_tokens ≤ cand.model.context_window
      ∧ (c.sensitive = true → cand.model.location ≠ "cloud")
      ∧ (isBudgetExceeded db today = true → cand.model.location ≠ "cloud")
      ∧ (c.quality_floor ≤ cand.model.quality_score ∨
          (c.quality_floor - policy.quality_tolerance ≤ cand.model.quality_score ∧
            cand.model.cost_output = 0))
      ∧ ((∃ m ∈ hardFiltered now today db c, c.quality_floor ≤ m.quality_score) →
          c.quality_floor ≤ cand.model.quality_score) := by
  intro cand hcand
  unfold selectCandidates at hsel
  rw [hpol] at hsel
  simp only [Option.some.injEq] at hsel
  subst hsel
  have hmodel := mem_buildRanked cand _ 1 hcand
  have hmem : cand.model ∈ applyQualityTolerance (hardFiltered now today db c)
      c.quality_floor policy.quality_tolerance :=
    (mem_sortModels _ _ _).mp hmodel.1
  have happ := mem_applyQualityTolerance _ _ _ _ hmem
  have hhard := mem_hardFiltered now today db c cand.model happ.1
  refine ⟨hhard.1, hhard.2.1, hhard.2.2.1, hhard.2.2.2.1, hhard.2.2.2.2.1,
    hhard.2.2.2.2.2.1, hhard.2.2.2.2.2.2, happ.2, ?_⟩
  intro hex
  exact applyQualityTolerance_strict _ _ _ hex cand.model hmem

/-- Witness for C1: a concrete selection over one enabled, healthy local
model that passes every hard filter and meets the strict quality floor. -/
theorem selectCandidates_hard_filters_witness :
    selectCandidates 0 "2026-10-11"
        ⟨some ⟨"local,lan,cloud", 5, 10, 200, none⟩,
         [⟨"local/m1", "localp", "local", 50, 4096, 0, 0, true, true, none⟩],
         [("local/m1", "coding")], [], [], [], []⟩
        ⟨40, none, false, 1000⟩ =
      some [⟨⟨"local/m1", "localp", "local", 50, 4096, 0, 0, true, true, none⟩, 50, 1⟩]
    ∧ ((40 : Int) ≤ 50 ∨ ((40 : Int) - 5 ≤ 50 ∧ (0 : Money) = 0)) := by
  have h := selectCandidates_hard_filters 0 "2026-10-11"
    ⟨some ⟨"local,lan,cloud", 5, 10, 200, none⟩,
     [⟨"local/m1", "localp", "local", 50, 4096, 0, 0, true, true, none⟩],
     [("local/m1", "coding")], [], [], [], []⟩
    ⟨40, none, false, 1000⟩
    ⟨"local,lan,cloud", 5, 10, 200, none⟩
    [⟨⟨"local/m1", "localp", "local", 50, 4096, 0, 0, true, true, none⟩, 50, 1⟩]
    rfl rfl
    ⟨⟨"local/m1", "localp", "local", 50, 4096, 0, 0, true, true, none⟩, 50, 1⟩
    (List.mem_singleton.mpr rfl)
  exact ⟨rfl, h.2.2.2.2.2.2.2.1⟩

-- ── Ranking and ordering (claim C4) ──

theorem buildRanked_map_rank :
    ∀ (l : List ModelRecord) (i : Nat),
      (buildRanked i l).map (fun cand => cand.rank) = List.range' i l.length := by
  intro l
  induction l with
  | nil => intro i; rfl
  | cons m ms ih =>
    intro i
    show i :: (buildRanked (i + 1) ms).map (fun cand => cand.rank) = _
    rw [ih (i + 1)]
    rfl

theorem buildRanked_map_model :
    ∀ (l : List ModelRecord) (i : Nat),
      (buildRanked i l).map (fun cand => cand.model) = l := by
  intro l
  induction l with
  | nil => intro i; rfl
  | cons m ms ih =>
    intro i
    show m :: (buildRanked (i + 1) ms).map (fun cand => cand.model) = m :: ms
    rw [ih (i + 1)]

theorem buildRanked_length :
    ∀ (l : List ModelRecord) (i : Nat), (buildRanked i l).length = l.length := by
  intro l
  induction l with
  | nil => intro i; rfl
  | cons m ms ih =>
    intro i
    show (buildRanked (i + 1) ms).length + 1 = ms.length + 1
    rw [ih (i + 1)]

theorem keyLt_iff (lo : List String) (a b : ModelRecord) :
    keyLt lo a b = true ↔
      (locIdx lo a < locIdx lo b ∨
        (locIdx lo a = locIdx lo b ∧
          (totalCost a < totalCost b ∨
            (totalCost a = totalCost b ∧ b.quality_score < a.quality_score)))) := by
  unfold keyLt
  simp [Bool.or_eq_true, Bool.and_eq_true, decide_eq_true_eq]

theorem keyLt_asymm (lo : List String) (a b : ModelRecord)
    (h : keyLt lo a b = true) : keyLt lo b a = false := by
  rw [Bool.eq_false_iff]
  intro h2
  rw [keyLt_iff] at h h2
  rcases h with h1 | ⟨h1, h2c | ⟨h2c, h3⟩⟩ <;>
    rcases h2 with g1 | ⟨g1, g2c | ⟨g2c, g3⟩⟩ <;>
      first
        | exact absurd h1 (not_lt.mpr g1.le)
        | exact absurd g1 (not_lt.mpr h1.le)
        | exact absurd h2c (not_lt.mpr g2c.le)
        | exact absurd g2c (not_lt.mpr h2c.le)
        | exact absurd h3 (not_lt.mpr g3.le)

theorem keyLt_neg_trans (lo : List String) (x y z : ModelRecord)
    (h1 : keyLt lo y x = false) (h2 : keyLt lo z y = false) :
    keyLt lo z x = false := by
  simp only [Bool.eq_false_iff, ne_eq, keyLt_iff] at h1 h2 ⊢
  push_neg at h1 h2
  obtain ⟨h1l, h1r⟩ := h1
  obtain ⟨h2l, h2r⟩ := h2
  have hxy : locIdx lo x ≤ locIdx lo y := h1l
  have hyz : locIdx lo y ≤ locIdx lo z := h2l
  intro hzx
  rcases hzx with hl | ⟨hl, hrest⟩
  · exact absurd (lt_of_lt_of_le hl (le_trans hxy hyz)) (lt_irrefl _)
  · have hyx : locIdx lo y = locIdx lo x := le_antisymm (hl ▸ hyz) hxy
    have hzy : locIdx lo z = locIdx lo y := le_antisymm (hl.le.trans hxy) hyz
    have h1c := h1r hyx
    have h2c := h2r hzy
    have hcxy : totalCost x ≤ totalCost y := h1c.1
    have hcyz : totalCost y ≤ totalCost z := h2c.1
    rcases hrest with hc | ⟨hc, hq⟩
    · exact absurd (lt_of_lt_of_le hc (le_trans hcxy hcyz)) (lt_irrefl _)
    · have hcyx : totalCost y = totalCost x := le_antisymm (hcyz.trans hc.le) hcxy
      have hczy : totalCost z = totalCost y := le_antisymm (hc.le.trans hcxy) hcyz
      have hq1 := h1c.2 hcyx
      have hq2 := h2c.2 hczy
      have hle : z.quality_score ≤ x.quality_score := le_trans hq2 hq1
      exact absurd hq (not_lt.mpr hle)

theorem insertModel_pairwise (lo : List String) (x : ModelRecord) :
    ∀ l : List ModelRecord,
      l.Pairwise (fun a b => keyLt lo b a = false) →
      (insertModel lo x l).Pairwise (fun a b => keyLt lo b a = false) := by
  intro l
  induction l with
  | nil =>
    intro _
    exact List.pairwise_singleton _ x
  | cons y ys ih =>
    intro h
    obtain ⟨hy, hys⟩ := List.pairwise_cons.mp h
    unfold insertModel
    by_cases hc : keyLt lo y x = true
    · rw [if_pos hc]
      refine List.pairwise_cons.mpr ⟨?_, ih hys⟩
      intro z hz
      rcases (mem_insertModel lo z x ys).mp hz with hz1 | hz1
      · subst hz1
        exact keyLt_asymm lo y z hc
      · exact hy z hz1
    · rw [if_neg hc]
      refine List.pairwise_cons.mpr ⟨?_, h⟩
      intro z hz
      have hc' : keyLt lo y x = false := Bool.eq_false_iff.mpr hc
      rcases List.mem_cons.mp hz with hz1 | hz1
      · subst hz1
        exact hc'
      · exact keyLt_neg_trans lo x y z hc' (hy z hz1)

theorem sortModels_pairwise (lo : List String) :
    ∀ l : List ModelRecord,
      (sortModels lo l).Pairwise (fun a b => keyLt lo b a = false) := by
  intro l
  induction l with
  | nil => exact List.Pairwise.nil
  | cons a t ih => exact insertModel_pairwise lo a (sortModels lo t) ih

theorem not_keyLt_threeKeyLe (lo : List String) (a b : ModelRecord)
    (h : keyLt lo b a = false) : ThreeKeyLe lo a b := by
  simp only [Bool.eq_false_iff, ne_eq, keyLt_iff] at h
  push_neg at h
  obtain ⟨hl, hr⟩ := h
  unfold ThreeKeyLe
  rcases lt_trichotomy (locIdx lo a) (locIdx lo b) with hlt | heq | hgt
  · exact Or.inl hlt
  · refine Or.inr ⟨heq, ?_⟩
    have hc := hr heq.symm
    rcases lt_trichotomy (totalCost a) (totalCost b) with hclt | hceq | hcgt
    · exact Or.inl hclt
    · refine Or.inr ⟨hceq, ?_⟩
      exact hc.2 hceq.symm
    · exact absurd hcgt (not_lt.mpr hc.1)
  · exact absurd hgt (not_lt.mpr hl)

/-- Claim C4: the selector output's ranks are contiguous `1..N` and the
underlying model list is ordered by the three-key lexicographic sort —
location-preference index, then `price_in + price_out` ascending, then
quality score descending. -/
theorem selectCandidates_ranked_sorted (now : Nat) (today : String) (db : Db)
    (c : SelectionCriteria) (policy : RoutingPolicy) (res : List RankedCandidate)
    (hpol : db.policy = some policy)
    (hsel : selectCandidates now today db c = some res) :
    res.map (fun cand => cand.rank) = List.range' 1 res.length
    ∧ (res.map (fun cand => cand.model)).Pairwise
        (ThreeKeyLe (parseLocationOrder policy.prefer_location_order)) := by
  unfold selectCandidates at hsel
  rw [hpol] at hsel
  simp only [Option.some.injEq] at hsel
  subst hsel
  constructor
  · rw [buildRanked_map_rank, buildRanked_length]
  · rw [buildRanked_map_model]
    exact (sortModels_pairwise _ _).imp
      (fun h => not_keyLt_threeKeyLe _ _ _ h)

/-- Witness for C4: a concrete selection over a local and a LAN model is
ranked `[1, 2]` with the preferred-location (local) model first. -/
theorem selectCandidates_ranked_sorted_witness :
    selectCandidates 0 "2026-10-11"
        ⟨some ⟨"local,lan,cloud", 5, 10, 200, none⟩,
         [⟨"lan/m1", "lanp", "lan", 50, 4096, 0, 0, true, true, none⟩,
          ⟨"local/m2", "localp", "local", 70, 4096, 0, 0, true, true, none⟩],
         [], [], [], [], []⟩
        ⟨40, none, false, 1000⟩ =
      some [⟨⟨"local/m2", "localp", "local", 70, 4096, 0, 0, true, true, none⟩, 70, 1⟩,
            ⟨⟨"lan/m1", "lanp", "lan", 50, 4096, 0, 0, true, true, none⟩, 50, 2⟩]
    ∧ ([⟨⟨"local/m2", "localp", "local", 70, 4096, 0, 0, true, true, none⟩, 70, 1⟩,
        ⟨⟨"lan/m1", "lanp", "lan", 50, 4096, 0, 0, true, true, none⟩, 50, 2⟩].map
          (fun cand : RankedCandidate => cand.rank)) =
        List.range' 1 2 := by
  have h := selectCandidates_ranked_sorted 0 "2026-10-11"
    ⟨some ⟨"local,lan,cloud", 5, 10, 200, none⟩,
     [⟨"lan/m1", "lanp", "lan", 50, 4096, 0, 0, true, true, none⟩,
      ⟨"local/m2", "localp", "local", 70, 4096, 0, 0, true, true, none⟩],
     [], [], [], [], []⟩
    ⟨40, none, false, 1000⟩
    ⟨"local,lan,cloud", 5, 10, 200, none⟩
    [⟨⟨"local/m2", "localp", "local", 70, 4096, 0, 0, true, true, none⟩, 70, 1⟩,
     ⟨⟨"lan/m1", "lanp", "lan", 50, 4096, 0, 0, true, true, none⟩, 50, 2⟩]
    rfl rfl
  exact ⟨rfl, h.1⟩

-- ── Retrying dispatcher (claims C2 and C3) ──

theorem routeWithRetry_error_iff (now : Nat)
    (send : ModelRecord → Except JsError BackendResponse) :
    ∀ (cands : List RankedCandidate) (db : Db),
      (routeWithRetry now send db cands).2 = .error () ↔
        ∀ cand ∈ cands, ∃ e, send cand.model = .error e := by
  intro cands
  induction cands with
  | nil =>
    intro db
    constructor
    · intro _ cand hc
      cases hc
    · intro _
      rfl
  | cons c rest ih =>
    intro db
    unfold routeWithRetry
    cases hs : send c.model with
    | ok r =>
      constructor
      · intro h
        cases h
      · intro h
        obtain ⟨e, he⟩ := h c (List.mem_cons_self _ _)
        rw [hs] at he
        cases he
    | error e =>
      rw [ih]
      constructor
      · intro h cand hc
        rcases List.mem_cons.mp hc with h1 | h1
        · subst h1
          exact ⟨e, hs⟩
        · exact h cand h1
      · intro h cand hc
        exact h cand (List.mem_cons_of_mem _ hc)

theorem routeWithRetry_ok_spec (now : Nat)
    (send : ModelRecord → Except JsError BackendResponse) :
    ∀ (cands : List RankedCandidate) (db db2 : Db) (resp : StreamResponse),
      routeWithRetry now send db cands = (db2, .ok resp) →
      ∃ k, ∃ hk : k < cands.length,
        send (cands.get ⟨k, hk⟩).model = .ok ⟨resp.chunks⟩
        ∧ resp.model = (cands.get ⟨k, hk⟩).model
        ∧ ∀ j (hj : j < k), ∃ e,
            send ((cands.get ⟨j, Nat.lt_trans hj hk⟩)).model = .error e := by
  intro cands
  induction cands with
  | nil =>
    intro db db2 resp h
    unfold routeWithRetry at h
    have h2 := congrArg Prod.snd h
    cases h2
  | cons c rest ih =>
    intro db db2 resp h
    unfold routeWithRetry at h
    cases hs : send c.model with
    | ok r =>
      rw [hs] at h
      have h2 := congrArg Prod.snd h
      simp only at h2
      injection h2 with h2
      subst h2
      refine ⟨0, Nat.succ_pos _, ?_, rfl, ?_⟩
      · show send c.model = Except.ok ⟨r.chunks⟩
        rw [hs]
      · intro j hj
        exact absurd hj (Nat.not_lt_zero j)
    | error e =>
      rw [hs] at h
      obtain ⟨k, hk, h1, h2, h3⟩ := ih _ _ _ h
      refine ⟨k + 1, Nat.succ_lt_succ hk, h1, h2, ?_⟩
      intro j hj
      cases j with
      | zero => exact ⟨e, hs⟩
      | succ jj => exact h3 jj (Nat.lt_of_succ_lt_succ hj)

theorem classifyFailure_effects (now : Nat) (db : Db) (cand : RankedCandidate)
    (err : JsError) :
    (is429 err = true →
      (classifyFailure now db cand err).model_health_log = db.model_health_log
      ∧ (classifyFailure now db cand err).models = db.models
      ∧ (classifyFailure now db cand err).provider_rate_limits =
          db.provider_rate_limits.map (fun r =>
            if r.provider = cand.model.provider then
              { r with is_rate_limited := true, limited_since := some now,
                       retry_after := some (now + 60) }
            else r))
    ∧ (is429 err = false → isTimeout err = true →
        (classifyFailure now db cand err).model_health_log = db.model_health_log
        ∧ (classifyFailure now db cand err).provider_rate_limits = db.provider_rate_limits
        ∧ (classifyFailure now db cand err).models =
            db.models.map (fun m =>
              if m.model_id = cand.model.model_id then
                { m with is_healthy := false, last_health_check := some now }
              else m))
    ∧ (is429 err = false → isTimeout err = false → isServerError err = true →
        (classifyFailure now db cand err).provider_rate_limits = db.provider_rate_limits
        ∧ (classifyFailure now db cand err).model_health_log =
            ⟨cand.model.model_id, false, none, some (errMessage err),
              ((lastHealthEntry db.model_health_log cand.model.model_id).map
                (fun e2 => e2.consecutive_failures)).getD 0 + 1⟩ :: db.model_health_log
        ∧ (classifyFailure now db cand err).models =
            db.models.map (fun m =>
              if m.model_id = cand.model.model_id then
                { m with
                  is_healthy :=
                    if UNHEALTHY_THRESHOLD ≤
                        ((lastHealthEntry db.model_health_log cand.model.model_id).map
                          (fun e2 => e2.consecutive_failures)).getD 0 + 1
                      then false else m.is_healthy,
                  last_health_check := some now }
              else m))
    ∧ (is429 err = false → isTimeout err = false → isServerError err = false →
        classifyFailure now db cand err = db) := by
  have hprev : (match lastHealthEntry db.model_health_log cand.model.model_id with
      | some e2 => e2.consecutive_failures
      | none => 0) =
      ((lastHealthEntry db.model_health_log cand.model.model_id).map
        (fun e2 => e2.consecutive_failures)).getD 0 := by
    cases lastHealthEntry db.model_health_log cand.model.model_id <;> rfl
  refine ⟨?_, ?_, ?_, ?_⟩
  · intro h4
    unfold classifyFailure
    rw [if_pos h4]
    exact ⟨rfl, rfl, rfl⟩
  · intro h4 ht
    unfold classifyFailure
    rw [if_neg (by rw [h4]; exact Bool.false_ne_true), if_pos ht]
    exact ⟨rfl, rfl, rfl⟩
  · intro h4 ht hsv
    unfold classifyFailure
    rw [if_neg (by rw [h4]; exact Bool.false_ne_true),
      if_neg (by rw [ht]; exact Bool.false_ne_true), if_pos hsv]
    refine ⟨?_, ?_, ?_⟩
    · unfold markUnhealthyCheck
      by_cases hth : UNHEALTHY_THRESHOLD ≤
          (match lastHealthEntry db.model_health_log cand.model.model_id with
           | some e2 => e2.consecutive_failures
           | none => 0) + 1
      · rw [if_pos hth]
      · rw [if_neg hth]
    · unfold markUnhealthyCheck
      rw [← hprev]
      by_cases hth : UNHEALTHY_THRESHOLD ≤
          (match lastHealthEntry db.model_health_log cand.model.model_id with
           | some e2 => e2.consecutive_failures
           | none => 0) + 1
      · rw [if_pos hth]
      · rw [if_neg hth]
    · unfold markUnhealthyCheck updateModelHealth
      rw [← hprev]
      by_cases hth : UNHEALTHY_THRESHOLD ≤
          (match lastHealthEntry db.model_health_log cand.model.model_id with
           | some e2 => e2.consecutive_failures
           | none => 0) + 1
      · rw [if_pos hth]
        simp only [hth, if_true]
      · rw [if_neg hth]
        simp only [hth, if_false]
  · intro h4 ht hsv
    unfold classifyFailure
    rw [if_neg (by rw [h4]; exact Bool.false_ne_true),
      if_neg (by rw [ht]; exact Bool.false_ne_true),
      if_neg (by rw [hsv]; exact Bool.false_ne_true)]

/-- Claim C2 counterexample: an error carrying both `status = 500` and a
message containing `timeout`.  The claim's server-error clause (any status
in `[500, 600)` appends a failed health-log row) predicts a new health-log
row, but the dispatcher tests the timeout shape first and flips the model
unhealthy directly: after the full dispatch run the health log is still
empty. -/
theorem routeWithRetry_claim_counterexample :
    is429 ⟨some 500, none, some "timeout", none, none, none⟩ = false
    ∧ isServerError ⟨some 500, none, some "timeout", none, none, none⟩ = true
    ∧ (routeWithRetry 0
        (fun _ => .error ⟨some 500, none, some "timeout", none, none, none⟩)
        ⟨none, [⟨"cloud/x", "prov", "cloud", 80, 200000, 3, 15, true, true, none⟩],
         [], [], [], [], []⟩
        [⟨⟨"cloud/x", "prov", "cloud", 80, 200000, 3, 15, true, true, none⟩, 80, 1⟩]
      ).1.model_health_log = []
    ∧ (routeWithRetry 0
        (fun _ => .error ⟨some 500, none, some "timeout", none, none, none⟩)
        ⟨none, [⟨"cloud/x", "prov", "cloud", 80, 200000, 3, 15, true, true, none⟩],
         [], [], [], [], []⟩
        [⟨⟨"cloud/x", "prov", "cloud", 80, 200000, 3, 15, true, true, none⟩, 80, 1⟩]
      ).1.models =
      [⟨"cloud/x", "prov", "cloud", 80, 200000, 3, 15, true, false, some 0⟩] := by
  exact ⟨rfl, rfl, rfl, rfl⟩

/-- Claim C2 (amended): the dispatcher tries candidates strictly in ranked
order, never retrying the same model, and signals "no available model"
exactly when every candidate's backend call failed; on each failure it
classifies the error testing `is429` first, then the timeout/connection
shape, then the server-error shape (so an error that is both 5xx and
timeout-shaped flips the model unhealthy directly, without a health-log
row): a 429 marks the provider rate-limited with `retry_after = now + 60 s`
by updating existing provider rows; a timeout flips the model unhealthy
directly; a 5xx appends a failed health-log row with the previous counter
plus one, flipping the model unhealthy at threshold 3; any other error
leaves the database unchanged. -/
theorem routeWithRetry_correct (now : Nat)
    (send : ModelRecord → Except JsError BackendResponse) :
    (∀ (cands : List RankedCandidate) (db : Db),
      (routeWithRetry now send db cands).2 = .error () ↔
        ∀ cand ∈ cands, ∃ e, send cand.model = .error e)
    ∧ (∀ (cands : List RankedCandidate) (db db2 : Db) (resp : StreamResponse),
        routeWithRetry now send db cands = (db2, .ok resp) →
        ∃ k, ∃ hk : k < cands.length,
          send (cands.get ⟨k, hk⟩).model = .ok ⟨resp.chunks⟩
          ∧ resp.model = (cands.get ⟨k, hk⟩).model
          ∧ ∀ j (hj : j < k), ∃ e,
              send ((cands.get ⟨j, Nat.lt_trans hj hk⟩)).model = .error e)
    ∧ (∀ (db : Db) (cand : RankedCandidate) (err : JsError),
        (is429 err = true →
          (classifyFailure now db cand err).model_health_log = db.model_health_log
          ∧ (classifyFailure now db cand err).models = db.models
          ∧ (classifyFailure now db cand err).provider_rate_limits =
              db.provider_rate_limits.map (fun r =>
                if r.provider = cand.model.provider then
                  { r with is_rate_limited := true, limited_since := some now,
                           retry_after := some (now + 60) }
                else r))
        ∧ (is429 err = false → isTimeout err = true →
            (classifyFailure now db cand err).model_health_log = db.model_health_log
            ∧ (classifyFailure now db cand err).provider_rate_limits =
                db.provider_rate_limits
            ∧ (classifyFailure now db cand err).models =
                db.models.map (fun m =>
                  if m.model_id = cand.model.model_id then
                    { m with is_healthy := false, last_health_check := some now }
                  else m))
        ∧ (is429 err = false → isTimeout err = false → isServerError err = true →
            (classifyFailure now db cand err).provider_rate_limits =
                db.provider_rate_limits
            ∧ (classifyFailure now db cand err).model_health_log =
                ⟨cand.model.model_id, false, none, some (errMessage err),
                  ((lastHealthEntry db.model_health_log cand.model.model_id).map
                    (fun e2 => e2.consecutive_failures)).getD 0 + 1⟩
                  :: db.model_health_log
            ∧ (classifyFailure now db cand err).models =
                db.models.map (fun m =>
                  if m.model_id = cand.model.model_id then
                    { m with
                      is_healthy :=
                        if UNHEALTHY_THRESHOLD ≤
                            ((lastHealthEntry db.model_health_log
                              cand.model.model_id).map
                              (fun e2 => e2.consecutive_failures)).getD 0 + 1
                          then false else m.is_healthy,
                      last_health_check := some now }
                  else m))
        ∧ (is429 err = false → isTimeout err = false → isServerError err = false →
            classifyFailure now db cand err = db)) := by
  refine ⟨?_, ?_, ?_⟩
  · intro cands db
    exact routeWithRetry_error_iff now send cands db
  · intro cands db db2 resp h
    exact routeWithRetry_ok_spec now send cands db db2 resp h
  · intro db cand err
    exact classifyFailure_effects now db cand err

/-- Witness for C2's amended theorem: with a single candidate whose backend
always times out, the dispatcher ends in the "no available model" state. -/
theorem routeWithRetry_correct_witness :
    (routeWithRetry 7 (fun _ => .error ⟨none, none, none, some "TimeoutError", none, none⟩)
      ⟨none, [⟨"local/m1", "localp", "local", 50, 4096, 0, 0, true, true, none⟩],
       [], [], [], [], []⟩
      [⟨⟨"local/m1", "localp", "local", 50, 4096, 0, 0, true, true, none⟩, 50, 1⟩]).2 =
      .error () := by
  have h := (routeWithRetry_correct 7
    (fun _ => .error ⟨none, none, none, some "TimeoutError", none, none⟩)).1
    [⟨⟨"local/m1", "localp", "local", 50, 4096, 0, 0, true, true, none⟩, 50, 1⟩]
    ⟨none, [⟨"local/m1", "localp", "local", 50, 4096, 0, 0, true, true, none⟩],
     [], [], [], [], []⟩
  exact h.mpr (by
    intro cand hc
    exact ⟨⟨none, none, none, some "TimeoutError", none, none⟩, rfl⟩)

theorem logRequest_log (db : Db) (decision : RoutingDecision) (m : ModelRecord)
    (i o : Nat) (s : Bool) (req : ChatRequestMeta) (today : String) :
    (logRequest db decision m i o s req today).request_log =
      ⟨req.source, req.channel, decision.tier_used, decision.selected_model, i, o,
       ((i : Money) * m.cost_input + (o : Money) * m.cost_output) / 1000000, s⟩
        :: db.request_log := by
  unfold logRequest
  by_cases h : 0 < ((i : Money) * m.cost_input + (o : Money) * m.cost_output) / 1000000
  · rw [if_pos h]
  · rw [if_neg h]

/-- Claim C3: each completion path writes exactly one request-log row, and
the logged `cost_usd` is `(in * price_in + out * price_out) / 1e6` computed
from the pricing of the actual serving model — the model attached to the
dispatcher's stream response, which is the first candidate whose backend
call succeeded and may differ from the first candidate overall. -/
theorem completed_request_logging (db : Db) (decision : RoutingDecision)
    (resp : StreamResponse) (delivered : List ChatChunk) (ok : Bool)
    (req : ChatRequestMeta) (today : String) (now : Nat)
    (send : ModelRecord → Except JsError BackendResponse)
    (db0 db2 : Db) (cands : List RankedCandidate) :
    ((handleStreaming db decision resp delivered ok req today).request_log =
      ⟨req.source, req.channel, decision.tier_used, decision.selected_model,
       (delivered.foldl accumUsage (0, 0)).1, (delivered.foldl accumUsage (0, 0)).2,
       (((delivered.foldl accumUsage (0, 0)).1 : Money) * resp.model.cost_input
         + ((delivered.foldl accumUsage (0, 0)).2 : Money) * resp.model.cost_output)
           / 1000000,
       ok⟩ :: db.request_log)
    ∧ ((handleNonStreaming db decision resp req today).1.request_log =
        (match resp.chunks.getLast? with
         | none =>
           (⟨req.source, req.channel, decision.tier_used, decision.selected_model, 0, 0,
             (((0 : Nat) : Money) * resp.model.cost_input
               + ((0 : Nat) : Money) * resp.model.cost_output) / 1000000,
             false⟩ : RequestLogRow)
         | some lastChunk =>
           ⟨req.source, req.channel, decision.tier_used, decision.selected_model,
            ((lastChunk.usage.map (fun u => u.1)).getD 0 : Nat),
            ((lastChunk.usage.map (fun u => u.2)).getD 0 : Nat),
            ((((lastChunk.usage.map (fun u => u.1)).getD 0 : Nat) : Money)
                * resp.model.cost_input
              + (((lastChunk.usage.map (fun u => u.2)).getD 0 : Nat) : Money)
                  * resp.model.cost_output) / 1000000,
            true⟩) :: db.request_log)
    ∧ (routeWithRetry now send db0 cands = (db2, .ok resp) →
        ∃ k, ∃ hk : k < cands.length,
          resp.model = (cands.get ⟨k, hk⟩).model
          ∧ send (cands.get ⟨k, hk⟩).model = .ok ⟨resp.chunks⟩
          ∧ ∀ j (hj : j < k), ∃ e,
              send ((cands.get ⟨j, Nat.lt_trans hj hk⟩)).model = .error e) := by
  refine ⟨?_, ?_, ?_⟩
  · unfold handleStreaming
    rw [logRequest_log]
  · unfold handleNonStreaming
    cases hl : resp.chunks.getLast? with
    | none =>
      rw [logRequest_log]
    | some lastChunk =>
      rw [logRequest_log]
  · intro h
    obtain ⟨k, hk, h1, h2, h3⟩ := routeWithRetry_ok_spec now send cands db0 db2 resp h
    exact ⟨k, hk, h2, h1, h3⟩

/-- Witness for C3: a one-candidate dispatch that succeeds immediately and
a streaming completion that logs one row priced by the serving model. -/
theorem completed_request_logging_witness :
    (handleStreaming ⟨none, [], [], [], [], [], []⟩ ⟨2, "local/m1"⟩
        ⟨[], ⟨"local/m1", "localp", "local", 50, 4096, 0, 0, true, true, none⟩⟩
        [] true ⟨none, none⟩ "2026-10-11").request_log =
      [⟨none, none, 2, "local/m1", 0, 0,
        (((0 : Nat) : Money) * 0 + ((0 : Nat) : Money) * 0) / 1000000, true⟩]
    ∧ routeWithRetry 0 (fun _ => .ok ⟨[]⟩) ⟨none, [], [], [], [], [], []⟩
        [⟨⟨"local/m1", "localp", "local", 50, 4096, 0, 0, true, true, none⟩, 50, 1⟩] =
      (⟨none, [], [], [], [], [], []⟩,
        .ok ⟨[], ⟨"local/m1", "localp", "local", 50, 4096, 0, 0, true, true, none⟩⟩) := by
  have h := completed_request_logging ⟨none, [], [], [], [], [], []⟩ ⟨2, "local/m1"⟩
    ⟨[], ⟨"local/m1", "localp", "local", 50, 4096, 0, 0, true, true, none⟩⟩
    [] true ⟨none, none⟩ "2026-10-11" 0 (fun _ => .ok ⟨[]⟩)
    ⟨none, [], [], [], [], [], []⟩ ⟨none, [], [], [], [], [], []⟩
    [⟨⟨"local/m1", "localp", "local", 50, 4096, 0, 0, true, true, none⟩, 50, 1⟩]
  refine ⟨?_, rfl⟩
  rw [h.1]
  rfl

end SmartClaw
